import Mathlib

/-!
Verification of the Overture datastore core against its specification.

This file contains a shallow embedding, in Lean 4, of the parts of the
Overture datastore that the verified properties concern:

* the `WindowedQuery` delta-update algebra and its reconciliation of
  server updates against preemptive client updates
  (`src/source/datastore/query/WindowedQuery.js`), and
* the `Store` record cache: status bitmask machine, dirty/committed/rollback
  tables, commit pipeline and source callbacks
  (`src/source/datastore/store/Store.js`).

Modelling conventions, used throughout:

* Store keys are minted as the strings `"k1", "k2", …` in the source; the
  numeric part is what identifies them, so the model uses `Nat` for store
  keys.  Record ids, account ids and state tokens stay `String`.
* JavaScript objects used as dictionaries are modelled as association
  lists in insertion order (`List (κ × α)`): setting an existing key keeps
  its position, setting a fresh key appends, and `for … in` iterates in
  insertion order, exactly as JS does for non-numeric string keys.
* Attribute values are opaque to the store except for `isEqual` (deep
  structural equality in `core/Core.js`), so the data model is parametric
  in a value type `V` with decidable equality.
* JS numbers appearing as list indexes, totals and lengths are modelled as
  `Int` (all the arithmetic the source performs on them is exact integer
  arithmetic); statuses and window bitmasks are `Nat`.
* The status bit constants come from `record/Status.js`, which is not part
  of the sources; they are modelled from the specification (§3.2) as
  distinct bits, in the order the specification lists them.
-/

namespace Overture

/-- JS `status & ~mask` for a 32-bit mask whose set bits are the distinct
status bits being cleared: for `status < 2^32` this agrees with the
JS coercion to 32-bit integers. -/
def jsClear (status mask : Nat) : Nat := status &&& (4294967295 - mask)

/-- Modelled from the spec: `record/Status.js` is not among the sources.
The specification (§3.2) lists the status bits in this order; they are
distinct bits of one machine word (design note: "Bitmask status. Keep as a
machine word"). -/
def EMPTY : Nat := 1

/-- Modelled from the spec: status bit, see `EMPTY`. -/
def READY : Nat := 2

/-- Modelled from the spec: status bit, see `EMPTY`. -/
def DESTROYED : Nat := 4

/-- Modelled from the spec: status bit, see `EMPTY`. -/
def NON_EXISTENT : Nat := 8

/-- Modelled from the spec: status bit, see `EMPTY`. -/
def LOADING : Nat := 16

/-- Modelled from the spec: status bit, see `EMPTY`. -/
def COMMITTING : Nat := 32

/-- Modelled from the spec: status bit, see `EMPTY`. -/
def NEW : Nat := 64

/-- Modelled from the spec: status bit, see `EMPTY`. -/
def DIRTY : Nat := 128

/-- Modelled from the spec: status bit, see `EMPTY`. -/
def OBSOLETE : Nat := 256

/-- A store key: the source mints the strings `"k1", "k2", …`
(`generateStoreKey` in `Store.js`); the model keeps the number. -/
abbrev SK := Nat

namespace WQ

/-!
### WindowedQuery — the delta-update algebra

From `src/source/datastore/query/WindowedQuery.js`.
-/

/-- Window state bits, from the `WINDOW_*` constants in `WindowedQuery.js`. -/
def WINDOW_EMPTY : Nat := 0

/-- Window state bit: ids requested. -/
def WINDOW_REQUESTED : Nat := 1

/-- Window state bit: ids loading. -/
def WINDOW_LOADING : Nat := 2

/-- Window state bit: all ids known. -/
def WINDOW_READY : Nat := 4

/-- Window state bit: records requested. -/
def WINDOW_RECORDS_REQUESTED : Nat := 8

/-- Window state bit: records loading. -/
def WINDOW_RECORDS_LOADING : Nat := 16

/-- Window state bit: all records loaded. -/
def WINDOW_RECORDS_READY : Nat := 32

/-- Truthiness of an entry of the sparse store-key list: a hole (`none`,
JS `undefined`) is falsy; a store key is one of the non-empty strings
`"k1", "k2", …` in the source, hence always truthy. -/
def truthy (o : Option SK) : Bool := o.isSome

/-- Truthiness of a possibly-null JS string (`null` and `""` are falsy). -/
def truthyStr (o : Option String) : Bool := o.getD "" ≠ ""

/-- Read `list[i]` of a (possibly sparse) JS array; out-of-range and
negative indexes give `undefined` (`none`). -/
def listGet (l : List (Option SK)) (i : Int) : Option SK :=
  if i < 0 then none else (l.getD i.toNat none)

/-- JS `list.indexOf(x)`: index of the first entry equal to `x`, else −1.
Holes are never equal to a store key. -/
def jsIndexOf (l : List (Option SK)) (x : SK) : Int :=
  match l.findIdx? (fun o => o = some x) with
  | some n => (n : Int)
  | none => -1

/-- JS `list.lastIndexOf(x)`: index of the last entry equal to `x`, else −1. -/
def jsLastIndexOf (l : List (Option SK)) (x : SK) : Int :=
  match l.reverse.findIdx? (fun o => o = some x) with
  | some n => (l.length : Int) - 1 - (n : Int)
  | none => -1

/-- JS `list.splice(i, 1)`: a negative start counts from the end and is
clamped at 0, a start beyond the end removes nothing. -/
def jsSplice1 {α : Type} (l : List α) (i : Int) : List α :=
  let j : Nat := if i < 0 then ((l.length : Int) + i).toNat
                 else min i.toNat l.length
  l.take j ++ l.drop (j + 1)

/-- JS `list.splice(i, 0, x)`: insert `x` at the (clamped) position `i`. -/
def jsSpliceIns {α : Type} (l : List α) (i : Int) (x : α) : List α :=
  let j : Nat := if i < 0 then ((l.length : Int) + i).toNat
                 else min i.toNat l.length
  l.take j ++ x :: l.drop j

/-- JS `list[i] = x`: replaces in range; past the end it extends the array,
creating holes; a negative `i` creates a non-index property, which is
invisible to every array operation the source performs, so the model
leaves the list unchanged. -/
def jsSetAt (l : List (Option SK)) (i : Int) (x : Option SK) : List (Option SK) :=
  if i < 0 then l
  else if i.toNat < l.length then l.set i.toNat x
  else l ++ List.replicate (i.toNat - l.length) none ++ [x]

/-- Read `windows[i]` as the source does (`windows[i] || 0`, or `| flag` /
`& mask`, whose 32-bit coercion sends `undefined` to 0). -/
def winGet (w : List Nat) (i : Int) : Nat :=
  if i < 0 then 0 else w.getD i.toNat 0

/-- Write `windows[i] = v`, extending with holes (read back as 0) past the
end; negative indexes are non-index properties, invisible afterwards. -/
def winSet (w : List Nat) (i : Int) (v : Nat) : List Nat :=
  if i < 0 then w
  else if i.toNat < w.length then w.set i.toNat v
  else w ++ List.replicate (i.toNat - w.length) 0 ++ [v]

/-- JS `windows.length = n`: truncates, or extends with holes (which every
later read coerces to 0). -/
def winSetLength (w : List Nat) (n : Int) : List Nat :=
  if (n : Int) ≤ (w.length : Int) then w.take n.toNat
  else w ++ List.replicate (n.toNat - w.length) 0

/-- Stable insertion of a linked (index, store key) pair: the pair being
inserted comes from earlier in the input, so it goes before any pair with
the same index already in the sorted suffix. -/
def sortInsert (p : Int × SK) : List (Int × SK) → List (Int × SK)
  | [] => [p]
  | q :: qs => if p.1 ≤ q.1 then p :: q :: qs else q :: sortInsert p qs

/-- `sortLinkedArrays` (WindowedQuery.js lines 58–65) on the zipped pair
list: a stable sort by the numeric first component, exactly the behaviour
of `Array#sort` with comparator `(a, b) => a[0] - b[0]`. -/
def sortLinked : List (Int × SK) → List (Int × SK)
  | [] => []
  | p :: ps => sortInsert p (sortLinked ps)

/-- The merge loop of `mergeSortedLinkedArrays`, with fuel so that the
recursion is structural (the wrapper supplies exactly the number of
iterations the source's `while` performs). -/
def mergeLinkedGo : Nat → List (Int × SK) → List (Int × SK) → List (Int × SK)
  | 0, _, _ => []
  | _ + 1, [], bs => bs
  | _ + 1, as, [] => as
  | fuel + 1, a :: as, b :: bs =>
    if a.1 < b.1 then a :: mergeLinkedGo fuel as (b :: bs)
    else b :: mergeLinkedGo fuel (a :: as) bs

/-- `mergeSortedLinkedArrays` (lines 109–130) on zipped pair lists: take
the smaller head each time; on ties the head of the *second* list goes
first (the source pushes from `a1` only when `a1[i] < a2[j]` strictly). -/
def mergeLinked (as bs : List (Int × SK)) : List (Int × SK) :=
  mergeLinkedGo (as.length + bs.length) as bs

/-- Modelled from the spec: `Array#binarySearch` lives in `core/Array.js`,
which is not among the sources.  The call site in `adjustIndexes` ("see
how many items were added in the first update before it") fixes it as the
lower-bound position in a sorted array: the number of elements smaller
than the value. -/
def binarySearch (l : List Int) (v : Int) : Nat :=
  (l.filter (fun x => x < v)).length

/-- The inner loop of `adjustIndexes` (lines 160–166): walk the sorted
`removedBefore` indexes, incrementing the index for each one that is ≤ it
(re-testing with the incremented index, as the source does). -/
def bumpIndex : List Int → Int → Int
  | [], index => index
  | rb :: rbs, index => if index ≥ rb then bumpIndex rbs (index + 1) else index

/-- `adjustIndexes` (lines 132–177), on zipped linked pairs.  `removed`
zipped with `storeKeys` is the second update's removals; `added` the first
update's additions (indexes only); `removedBefore` zipped with its store
keys is the first update's removals. -/
def adjustIndexes (removed : List (Int × SK)) (added : List Int)
    (removedBefore : List (Int × SK)) : List (Int × SK) :=
  let result := removed.filterMap (fun p =>
    let position := binarySearch added p.1
    -- An exact positional coincidence with an addition of the first
    -- update cancels out.
    if added.get? position = some p.1 then none
    else some (bumpIndex removedBefore.unzip.1 (p.1 - (position : Int)), p.2))
  mergeLinked removedBefore result

/-- A normalised update, the internal form produced by `_normaliseUpdate`
and manipulated by `composeUpdates` / `invertUpdate` / `_applyUpdate`.
The four arrays are linked pairwise: `removedIndexes[i]` is the index from
which `removedStoreKeys[i]` was removed, and likewise for additions. -/
structure Update where
  removedIndexes : List Int
  removedStoreKeys : List SK
  addedIndexes : List Int
  addedStoreKeys : List SK
  truncateAtFirstGap : Bool
  total : Int
  upToId : Option SK
  deriving DecidableEq, Repr

/-- `invertUpdate` (WindowedQuery.js lines 206–218): swap the removed and
added arrays, and recompute `total` — after the swap the source reads
`u.addedStoreKeys` (the original removed keys) and `u.removedStoreKeys`
(the original added keys). -/
def invertUpdate (u : Update) : Update :=
  { removedIndexes := u.addedIndexes
    removedStoreKeys := u.addedStoreKeys
    addedIndexes := u.removedIndexes
    addedStoreKeys := u.removedStoreKeys
    truncateAtFirstGap := u.truncateAtFirstGap
    total := u.total + u.removedStoreKeys.length - u.addedStoreKeys.length
    upToId := u.upToId }

/-- `composeUpdates` (lines 179–204): compose two consecutive normalised
updates into one.  Both calls to `adjustIndexes` are made on the incoming
updates before anything is replaced, and the result takes `total` and
`upToId` from the second update. -/
def composeUpdates (u1 u2 : Update) : Update :=
  let removed := adjustIndexes (u2.removedIndexes.zip u2.removedStoreKeys)
    u1.addedIndexes (u1.removedIndexes.zip u1.removedStoreKeys)
  let added := adjustIndexes (u1.addedIndexes.zip u1.addedStoreKeys)
    u2.removedIndexes (u2.addedIndexes.zip u2.addedStoreKeys)
  { removedIndexes := removed.unzip.1
    removedStoreKeys := removed.unzip.2
    addedIndexes := added.unzip.1
    addedStoreKeys := added.unzip.2
    truncateAtFirstGap := u1.truncateAtFirstGap || u2.truncateAtFirstGap
    total := u2.total
    upToId := u2.upToId }

/-- `updateIsEqual` (lines 226–234): equality of `total` and of the four
index/store-key arrays (`isEqual` is deep structural equality);
`truncateAtFirstGap` and `upToId` are not compared. -/
def updateIsEqual (u1 u2 : Update) : Bool :=
  u1.total == u2.total &&
  u1.addedIndexes == u2.addedIndexes &&
  u1.addedStoreKeys == u2.addedStoreKeys &&
  u1.removedIndexes == u2.removedIndexes &&
  u1.removedStoreKeys == u2.removedStoreKeys

/-- `mapIndexes` (lines 67–95): the index in `list` of each store key, −1
when absent.  The source forks on
`storeKeys.length < ~~Math.log(list.length) + 1` between a linear scan
(`list.indexOf`, first occurrence) and a hash map built from `list`
(which retains the *last* occurrence); the fork is a pure performance
heuristic, computed in floating point, and the two branches agree
whenever no store key occurs twice in the list — which the store-key
list guarantees.  The model uses the scan; `mapIndexesViaMap` below
records the other branch for reference. -/
def mapIndexes (list : List (Option SK)) (storeKeys : List SK) : List Int :=
  storeKeys.map (fun sk => jsIndexOf list sk)

/-- The hash-map branch of `mapIndexes`: build `indexOf[id] = i` for every
defined entry in ascending order (so a duplicate id keeps its last
index), then look each store key up, −1 when absent. -/
def mapIndexesViaMap (list : List (Option SK)) (storeKeys : List SK) : List Int :=
  storeKeys.map (fun sk => jsLastIndexOf list sk)

/-- `preemptives.reduce(composeUpdates)`: left fold without initial value.
All call sites guard against the empty list (JS `reduce` throws on it);
the value returned for `[]` here is never reached. -/
def reduceCompose : List Update → Update
  | [] =>
    { removedIndexes := [], removedStoreKeys := [], addedIndexes := []
      addedStoreKeys := [], truncateAtFirstGap := false, total := 0
      upToId := none }
  | p :: ps => ps.foldl composeUpdates p

/-- The composed-prefix list of step 1 of `sourceDidFetchUpdate`
(lines 973–978): `[p1, p1∘p2, p1∘p2∘p3, …]`. -/
def composePrefixes (acc : Update) : List Update → List Update
  | [] => [acc]
  | p :: ps => acc :: composePrefixes (composeUpdates acc p) ps

/-- The search of step 3 (lines 1076–1084): the *largest* index `i` with
`updateIsEqual(normalisedUpdate, composed[i])`, since the source scans from
the top and breaks at the first match. -/
def findMatchIdx (nu : Update) (composed : List Update) : Option Nat :=
  match composed.reverse.findIdx? (fun c => updateIsEqual nu c) with
  | some k => some (composed.length - 1 - k)
  | none => none

/-- The idempotent-pair removal loop of `sourceDidFetchUpdate`
(lines 1044–1060): scan the added pairs downwards; an added pair whose
store key also appears among the removed pairs at matching adjusted
position is dropped from both sides.  `i` is the number of added
positions still to examine. -/
def stripInert : Nat → List (Int × SK) → List (Int × SK) →
    List (Int × SK) × List (Int × SK)
  | 0, removedPairs, addedPairs => (removedPairs, addedPairs)
  | i + 1, removedPairs, addedPairs =>
    match addedPairs.get? i with
    | none => stripInert i removedPairs addedPairs
    | some (ai, ask) =>
      match removedPairs.findIdx? (fun rp => rp.2 = ask) with
      | some j =>
        if (removedPairs.getD j (0, 0)).1 - (j : Int) + (i : Int) = ai then
          stripInert i (removedPairs.eraseIdx j) (addedPairs.eraseIdx i)
        else stripInert i removedPairs addedPairs
      | none => stripInert i removedPairs addedPairs

/-- First-occurrence deduplication, as the `seenStorekey` reduce over
`update.removed` (lines 944–959). -/
def dedupSK (l : List SK) : List SK :=
  l.foldl (fun acc sk => if sk ∈ acc then acc else acc ++ [sk]) []

/-- An id packet, the argument of `sourceDidFetchIds` (lines 1122–1140). -/
structure IdPacket where
  queryState : String
  position : Int
  ids : List String
  total : Int
  deriving DecidableEq, Repr

/-- The raw update passed to `_normaliseUpdate` / `clientDidGenerateUpdate`:
removed store keys, added (index, store key) pairs in ascending index
order, and optional total and upToId. -/
structure RawUpdate where
  removed : List SK
  added : List (Int × SK)
  total : Option Int
  upToId : Option SK
  deriving DecidableEq, Repr

/-- The delta update passed to `sourceDidFetchUpdate` (lines 886–912),
with ids still unmapped.  The source allows `total` to be omitted; the
model requires it (the specification supplies `total` in every delta
scenario, and an omitted total would poison Path B's totals with
`undefined`). -/
structure DeltaUpdate where
  oldQueryState : String
  newQueryState : String
  removed : List String
  added : List (Int × String)
  upToId : Option String
  total : Int
  deriving DecidableEq, Repr

/-- The reactive state of one `WindowedQuery`.  `storeKeys` is the sparse
list `this._storeKeys` (holes are `none`); `length?` and `queryState` are
`null` before the first fetch.  `refreshRequested` is the Query base
class's `_refresh` flag, and `queryUpdatedEvents` records the payloads of
the `query:updated` events fired (most recent last); `idsLoadedFires`
counts `query:idsLoaded` events.  `toStoreKey` (the store binding) is
passed to the operations separately so that states stay comparable. -/
structure WQState where
  storeKeys : List (Option SK)
  windows : List Nat
  preemptiveUpdates : List Update
  waitingPackets : List IdPacket
  queryState : Option String
  status : Nat
  length? : Option Int
  windowSize : Nat
  canGetDeltaUpdates : Bool
  refreshRequested : Bool
  queryUpdatedEvents : List (List SK × List Int × List SK × List Int)
  idsLoadedFires : Nat
  deriving DecidableEq, Repr

/-- Modelled from the spec: `Query.js` (the query base class) is not among
the sources.  `setObsolete` marks the query OBSOLETE (§4.5:
"enqueue the packet in `waitingPackets` and set OBSOLETE"). -/
def setObsolete (q : WQState) : WQState :=
  { q with status := q.status ||| OBSOLETE }

/-- Modelled from the spec: `Query.js` is not among the sources.
`fetch` records that a refresh was requested (the `_refresh` flag read and
cleared by `sourceWillFetchQuery`) and asks the source to fetch the query;
the status bit changes happen later, in `sourceWillFetchQuery`. -/
def fetchQ (q : WQState) : WQState :=
  { q with refreshRequested := true }

/-- `WindowedQuery#reset` (lines 380–389) clears the windows, waiting
packets and preemptive updates; the base `Query#reset` it then calls is
not among the sources and is modelled from the spec (§4.5 step 1 of the
apply-update algorithm: "If not found, full reset"): the query returns to
its pristine state — empty list, null length and query state, EMPTY
status. -/
def resetQ (q : WQState) : WQState :=
  { q with storeKeys := [], windows := [], waitingPackets := []
           preemptiveUpdates := [], queryState := none, length? := none
           status := EMPTY }

/-- `_fetchObservedWindows` (lines 830–852) walks the registered range
observers; the model carries none (no view is attached), and with
`meta(this).rangeObservers` undefined the source function does nothing. -/
def fetchObservedWindows (q : WQState) : WQState := q

/-- The gap scan of `recalculateFetchedWindows` (lines 618–624): does any
slot in `[target, listIndex]` hold no store key? -/
def hasGapDown (list : List (Option SK)) (target listIndex : Int) : Bool :=
  (List.range (listIndex + 1 - target).toNat).any
    (fun k => !truthy (listGet list (target + k)))

/-- The window loop of `recalculateFetchedWindows` (lines 610–629),
walking `windowIndex` down to `start`; the fuel supplied by the wrapper
equals the exact number of iterations. -/
def recalcLoop (list : List (Option SK)) (ws : Int) (start : Int) :
    Nat → Int → Int → List Nat → List Nat
  | 0, _, _, windows => windows
  | fuel + 1, windowIndex, listIndex, windows =>
    if windowIndex ≥ start then
      let target := windowIndex * ws
      let status := jsClear (winGet windows windowIndex) WINDOW_RECORDS_READY
      let status := status ||| WINDOW_READY
      let status := if hasGapDown list target listIndex then
          jsClear status WINDOW_READY else status
      recalcLoop list ws start fuel (windowIndex - 1) (target - 1)
        (winSet windows windowIndex status)
    else windows

/-- `recalculateFetchedWindows` (lines 584–631).  `len?` is the optional
second argument; when omitted the source reads `this.get('length')`, whose
`null` behaves as 0 in the ensuing arithmetic. -/
def recalculateFetchedWindows (q : WQState) (start : Int) (len? : Option Int) :
    WQState :=
  let start := if start = 0 then 0 else start
  let lengthN : Int := ((len?).orElse (fun _ => q.length?)).getD 0
  let ws : Int := q.windowSize
  let windowIndex := (lengthN - 1).fdiv ws
  let listIndex := lengthN - 1
  let startW := start.fdiv ws
  let windows := winSetLength q.windows (windowIndex + 1)
  let windows := recalcLoop q.storeKeys ws startW
    (windowIndex + 1 - startW).toNat windowIndex listIndex windows
  { q with windows := windows }

/-- `_normaliseUpdate` (lines 635–689), over the current store-key list
and `length` property. -/
def normaliseUpdate (list : List (Option SK)) (length? : Option Int)
    (u : RawUpdate) : Update :=
  let removedIndexes := mapIndexes list u.removed
  let pairs := sortLinked (removedIndexes.zip u.removed)
  -- Find the first index of known position; ignore ids whose position is
  -- unknown, but record that the list must be truncated at the first gap.
  let i := (pairs.takeWhile (fun p => p.1 == -1)).length
  let truncateAtFirstGap := i ≠ 0
  let pairs := pairs.drop i
  let folded := u.added.foldl (fun (acc : List (Int × SK) × List (Int × SK)) a =>
    let (rp, ap) := acc
    match rp.findIdx? (fun p => p.2 = a.2) with
    | some j =>
      if (rp.getD j (0, 0)).1 - (j : Int) + (ap.length : Int) = a.1 then
        (rp.eraseIdx j, ap)
      else (rp, ap ++ [a])
    | none => (rp, ap ++ [a])) (pairs, [])
  let removedPairs := folded.1
  let addedPairs := folded.2
  { removedIndexes := removedPairs.unzip.1
    removedStoreKeys := removedPairs.unzip.2
    addedIndexes := addedPairs.unzip.1
    addedStoreKeys := addedPairs.unzip.2
    truncateAtFirstGap := truncateAtFirstGap
    total := u.total.getD
      (length?.getD 0 - removedPairs.length + addedPairs.length)
    upToId := u.upToId }

/-- The `while ((length -= windowSize) >= 0)` loop of `sourceDidFetchIds`
(lines 1244–1247): mark whole windows READY.  Returns the final
(length, windowIndex, windows); the wrapper supplies ample fuel (the
source's `windowSize` is the positive constant 30). -/
def markWindowsReady (ws : Int) :
    Nat → Int → Int → List Nat → Int × Int × List Nat
  | 0, length, windowIndex, windows => (length, windowIndex, windows)
  | fuel + 1, length, windowIndex, windows =>
    let length := length - ws
    if length ≥ 0 then
      markWindowsReady ws fuel length (windowIndex + 1)
        (winSet windows windowIndex (winGet windows windowIndex ||| WINDOW_READY))
    else (length, windowIndex, windows)

/-- The preemptive adjustment of removed indexes in `sourceDidFetchIds`
(lines 1182–1192): walk the composed preemptive's removed indexes from the
end, compacting the fetched slice.  State is (storeKeys, length,
position). -/
def adjustFetchedForRemoved (removedIndexes : List Int)
    (st : List SK × Int × Int) : List SK × Int × Int :=
  removedIndexes.reverse.foldl (fun (st : List SK × Int × Int) ri =>
    let (storeKeys, length, position) := st
    let index := ri - position
    if index < length then
      if index ≥ 0 then (jsSplice1 storeKeys index, length - 1, position)
      else (storeKeys, length, position - 1)
    else st) st

/-- The preemptive adjustment of added indexes in `sourceDidFetchIds`
(lines 1193–1203): walk the composed preemptive's additions in order,
shifting or inserting; the first addition past the fetched slice stops
the loop (`break`). -/
def adjustFetchedForAdded :
    List (Int × SK) → List SK × Int × Int → List SK × Int × Int
  | [], st => st
  | (ai, ask) :: rest, (storeKeys, length, position) =>
    let index := ai - position
    if index ≤ 0 then
      adjustFetchedForAdded rest (storeKeys, length, position + 1)
    else if index < length then
      adjustFetchedForAdded rest
        (jsSpliceIns storeKeys index ask, length + 1, position)
    else (storeKeys, length, position)

/-- The calls of the mutually recursive cluster
`_applyUpdate` / `_applyWaitingPackets` / `sourceDidFetchIds`
(lines 691–828 and 1141–1264).  The cluster is embedded as one
fuel-indexed interpreter, `wqRun`, so that the recursion is structural
(each constructor is one of the source functions, or the second half of
one whose first half can return early). -/
inductive WQCall where
  | applyUpd (q : WQState) (u : Update)
  | applyRest (q : WQState) (u : Update) (recalculate : Bool)
      (list : List (Option SK)) (listLength firstChange : Int)
  | drainPackets (q : WQState)
  | drainLoop (qs : Option String) (q : WQState) (i : Nat) (didDrop : Bool)
  | fetchIds (q : WQState) (p : IdPacket)
  | fetchIdsRest (q : WQState) (p : IdPacket)

/-- The query state a call is operating on (used only by the zero-fuel
base case, which is never reached from the wrappers below: they supply
more fuel than a drain of the waiting-packet queue can consume). -/
def WQCall.state : WQCall → WQState
  | .applyUpd q _ => q
  | .applyRest q _ _ _ _ _ => q
  | .drainPackets q => q
  | .drainLoop _ q _ _ => q
  | .fetchIds q _ => q
  | .fetchIdsRest q _ => q

/-- One fuel-indexed interpreter for the recursive cluster.

* `.applyUpd` is `_applyUpdate` (lines 691–805) up to the `upToId` check,
  which may abort into a full reset; `.applyRest` is the remainder:
  removals (high array position first), truncation at the first gap,
  additions, window recalculation, events, and the final waiting-packet
  drain.  `listLength` is the source's stale local variable: removals do
  not update it.  The `rangeDidChange` calls are not modelled (no range
  observers are attached).
* `.drainPackets` is `_applyWaitingPackets` (lines 807–828): capture the
  current `queryState` once, then run the shift loop (`.drainLoop`) as
  many times as the queue is long.  A shifted packet whose `queryState`
  no longer matches the captured one is older than the current state and
  is dropped (triggering `_fetchObservedWindows` at the end), otherwise
  it is fed back into `sourceDidFetchIds`.  The `[]` case inside the loop
  would be a fault in the source (`shift()` on a drained queue); it is
  unreachable, because packets are only enqueued when
  `canGetDeltaUpdates` is set, and then nested calls never consume the
  queue.
* `.fetchIds` is `sourceDidFetchIds` (lines 1141–1264) up to the
  query-state guard: a packet for a different query state than the
  current (truthy) one is enqueued for later replay when delta updates
  are available, else the whole list is thrown away and rebuilt.
  `.fetchIdsRest` is the remainder: adjust the fetched slice for any
  outstanding preemptive updates, splice the store keys into the list,
  and recompute which windows became READY.  The source's
  `informAllRangeObservers` flag only widens the `rangeDidChange`
  broadcast, which is not modelled. -/
def wqRun (toSK : String → SK) : Nat → WQCall → WQState
  | 0, c => c.state
  | fuel + 1, .applyUpd q args =>
    let list := q.storeKeys
    let recalculate :=
      args.addedStoreKeys.length != 0 || args.removedStoreKeys.length != 0
    let oldLength := q.length?.getD 0
    let firstChange := oldLength
    let listLength : Int := (list.length : Int)
    (match args.upToId with
    | some upId =>
      -- upToId is the last id the updates apply to; truncate there, or
      -- reset entirely if it cannot be found.
      let index := jsLastIndexOf list upId + 1
      if index ≠ 0 then
        if index ≠ listLength then
          wqRun toSK fuel (.applyRest q args true (list.take index.toNat)
            index (if index < firstChange then index else firstChange))
        else
          wqRun toSK fuel (.applyRest q args recalculate list listLength
            firstChange)
      else resetQ q
    | none =>
      wqRun toSK fuel (.applyRest q args recalculate list listLength
        firstChange))
  | fuel + 1, .applyRest q args recalculate list listLength firstChange =>
    let st := args.removedIndexes.reverse.foldl
      (fun (st : List (Option SK) × Int) index =>
        (jsSplice1 st.1 index, if index < st.2 then index else st.2))
      (list, firstChange)
    let list := st.1
    let firstChange := st.2
    let truncSt :=
      if args.truncateAtFirstGap then
        let i := (list.takeWhile truthy).length
        (list.take i, (i : Int),
         if (i : Int) < firstChange then (i : Int) else firstChange)
      else (list, listLength, firstChange)
    let addSt := (args.addedIndexes.zip args.addedStoreKeys).foldl
      (fun (st : List (Option SK) × Int × Int) p =>
        let (list, listLength, firstChange) := st
        let (index, storeKey) := p
        let (list, listLength) :=
          if index ≥ listLength then
            (jsSetAt list index (some storeKey), index + 1)
          else (jsSpliceIns list index (some storeKey), listLength + 1)
        (list, listLength,
         if index < firstChange then index else firstChange))
      truncSt
    let firstChange := addSt.2.2
    let q := { q with storeKeys := addSt.1 }
    let q := if recalculate then
        recalculateFetchedWindows q firstChange (some args.total)
      else q
    let q := { q with length? := some args.total }
    let payload := (args.removedStoreKeys, args.removedIndexes,
      args.addedStoreKeys, args.addedIndexes)
    let q := { q with queryUpdatedEvents := q.queryUpdatedEvents ++ [payload] }
    wqRun toSK fuel (.drainPackets q)
  | fuel + 1, .drainPackets q =>
    wqRun toSK fuel (.drainLoop q.queryState q q.waitingPackets.length false)
  | _ + 1, .drainLoop _ q 0 didDrop =>
    if didDrop then fetchObservedWindows q else q
  | fuel + 1, .drainLoop qs q (i + 1) didDrop =>
    (match q.waitingPackets with
    | [] => if didDrop then fetchObservedWindows q else q
    | packet :: rest =>
      let q := { q with waitingPackets := rest }
      if some packet.queryState ≠ qs then
        wqRun toSK fuel (.drainLoop qs q i true)
      else
        wqRun toSK fuel
          (.drainLoop qs (wqRun toSK fuel (.fetchIds q packet)) i didDrop))
  | fuel + 1, .fetchIds q args =>
    let queryState := q.queryState
    if truthyStr queryState ∧ queryState ≠ some args.queryState then
      if q.canGetDeltaUpdates then
        fetchQ (setObsolete
          { q with waitingPackets := q.waitingPackets ++ [args] })
      else
        wqRun toSK fuel (.fetchIdsRest
          { q with storeKeys := [], windows := [], preemptiveUpdates := [] }
          args)
    else wqRun toSK fuel (.fetchIdsRest q args)
  | fuel + 1, .fetchIdsRest q args =>
    -- `status` is captured before any update, as at the top of the source.
    let status := q.status
    let q := { q with queryState := some args.queryState }
    let storeKeys := args.ids.map toSK
    let adj : WQState × List SK × Int × Int × Int :=
      match q.preemptiveUpdates with
      | [] => (q, storeKeys, (args.ids.length : Int), args.position, args.total)
      | p :: ps =>
        let allPre := reduceCompose (p :: ps)
        if q.canGetDeltaUpdates then
          let st := adjustFetchedForRemoved allPre.removedIndexes
            (storeKeys, (args.ids.length : Int), args.position)
          let st := adjustFetchedForAdded
            (allPre.addedIndexes.zip allPre.addedStoreKeys) st
          (q, st.1, st.2.1, st.2.2, allPre.total)
        else
          -- No change actually occurred on the server, so the preemptive
          -- change was wrong: unwind it.
          let q := wqRun toSK fuel (.applyUpd q (invertUpdate allPre))
          (({ q with preemptiveUpdates := [] } : WQState), storeKeys,
            (args.ids.length : Int), args.position, args.total)
    let q := adj.1
    let storeKeys := adj.2.1
    let length := adj.2.2.1
    let position := adj.2.2.2.1
    let total := adj.2.2.2.2
    let endI := position + length
    let list := storeKeys.enum.foldl
      (fun l (p : Nat × SK) => jsSetAt l (position + (p.1 : Int)) (some p.2))
      q.storeKeys
    let q := { q with storeKeys := list }
    let ws : Int := q.windowSize
    let windowIndex := position.fdiv ws
    let withinWindowIndex := position.tmod ws
    let lenWin :=
      if withinWindowIndex ≠ 0 then
        let beginningFetched := (List.range withinWindowIndex.toNat).all
          (fun k => truthy (listGet list (windowIndex * ws + k)))
        if beginningFetched then (length + withinWindowIndex, windowIndex)
        else (length - (ws - withinWindowIndex), windowIndex + 1)
      else (length, windowIndex)
    let mk := markWindowsReady ws (lenWin.1.toNat + 1) lenWin.1 lenWin.2
      q.windows
    let length := mk.1 + ws
    let windowIndex := mk.2.1
    let windows := mk.2.2
    let windows :=
      if length ≠ 0 ∧ endI = total ∧ length = total.tmod ws then
        winSet windows windowIndex
          (winGet windows windowIndex ||| WINDOW_READY)
      else windows
    let q := { q with windows := windows }
    let q := { q with length? := some total }
    let q := { q with status :=
        READY ||| (status &&& (DIRTY ||| LOADING ||| OBSOLETE)) }
    { q with idsLoadedFires := q.idsLoadedFires + 1 }

/-- Fuel for the `_applyUpdate` / `_applyWaitingPackets` /
`sourceDidFetchIds` call cycle: each drained packet costs at most four
nesting levels, and the queue never grows during a drain, so this bound
is ample. -/
def wqFuel (q : WQState) : Nat := 8 * (q.waitingPackets.length + 2)

/-- `_applyUpdate` with ample fuel. -/
def applyUpdate (toSK : String → SK) (q : WQState) (u : Update) : WQState :=
  wqRun toSK (wqFuel q) (.applyUpd q u)

/-- `_applyWaitingPackets` with ample fuel. -/
def applyWaitingPackets (toSK : String → SK) (q : WQState) : WQState :=
  wqRun toSK (wqFuel q) (.drainPackets q)

/-- `sourceDidFetchIds` with ample fuel. -/
def sourceDidFetchIds (toSK : String → SK) (q : WQState) (p : IdPacket) :
    WQState :=
  wqRun toSK (wqFuel q) (.fetchIds q p)

/-- `clientDidGenerateUpdate` (lines 874–883): normalise the client's
optimistic update against the current list, ignoring unknown ids
entirely, apply it at once, push it on the preemptive stack and mark the
query DIRTY and OBSOLETE. -/
def clientDidGenerateUpdate (toSK : String → SK) (q : WQState)
    (update : RawUpdate) : WQState :=
  let nu := normaliseUpdate q.storeKeys q.length? update
  let nu := { nu with truncateAtFirstGap := false }
  let q := applyUpdate toSK q nu
  let q := { q with preemptiveUpdates := q.preemptiveUpdates ++ [nu] }
  let q := { q with status := q.status ||| DIRTY }
  setObsolete q

/-- Step 2 of `sourceDidFetchUpdate` with preemptives pending
(lines 980–1060): normalise the server update, recovering the index each
removed store key had in the previous query state — from the composed
preemptive `allPre` when it removed that key, else by locating the key in
the current list and composing — then sort the removals and strip
idempotent add/remove pairs. -/
def pathBNormalise (list : List (Option SK)) (allPre : Update)
    (removed : List SK) (added : List (Int × SK)) (total : Int)
    (upToId : Option SK) : Update :=
  let step1 := removed.foldl
    (fun (acc : List (Int × SK) × List (Int × SK) × Bool) sk =>
      let (rp, trp, trunc) := acc
      match allPre.removedStoreKeys.findIdx? (fun x => x = sk) with
      | some i =>
        (rp ++ [(allPre.removedIndexes.getD i 0, sk)], trp, trunc)
      | none =>
        let i := jsIndexOf list sk
        if i > -1 then (rp, trp ++ [(i, sk)], trunc)
        else (rp, trp, true))
    ([], [], false)
  let step2 :=
    if step1.2.1.length ≠ 0 then
      -- The object literal at lines 1023–1028 carries no
      -- truncateAtFirstGap/total/upToId; composeUpdates copies the latter
      -- two from it, but Path B never reads them from the composition, so
      -- the defaults below are irrelevant.
      let composedUpdate := composeUpdates allPre
        { removedIndexes := step1.2.1.unzip.1
          removedStoreKeys := step1.2.1.unzip.2
          addedIndexes := [], addedStoreKeys := []
          truncateAtFirstGap := false, total := 0, upToId := none }
      step1.2.1.foldl
        (fun (acc : List (Int × SK) × Bool) pr =>
          match composedUpdate.removedStoreKeys.findIdx?
              (fun x => x = pr.2) with
          | some i =>
            (acc.1 ++ [(composedUpdate.removedIndexes.getD i 0, pr.2)],
             acc.2)
          | none => (acc.1, true))
        (step1.1, step1.2.2)
    else (step1.1, step1.2.2)
  let removedPairs := sortLinked step2.1
  let stripped := stripInert added.length removedPairs added
  { removedIndexes := stripped.1.unzip.1
    removedStoreKeys := stripped.1.unzip.2
    addedIndexes := stripped.2.unzip.1
    addedStoreKeys := stripped.2.unzip.2
    truncateAtFirstGap := step2.2
    total := total
    upToId := upToId }

/-- The normalised form of a server delta update against the composition
of the pending preemptive updates: `pathBNormalise` applied to the current
list and the full composition (`composed[preemptivesLength - 1]` in the
source, which equals the left fold of `composeUpdates`), with the
update's ids mapped to store keys and its removed ids deduplicated
exactly as `sourceDidFetchUpdate` does. -/
def serverNormalised (toSK : String → SK) (update : DeltaUpdate)
    (list : List (Option SK)) (pre : List Update) : Update :=
  pathBNormalise list (reduceCompose pre)
    (dedupSK (update.removed.map toSK))
    (update.added.map (fun a => (a.1, toSK a.2)))
    update.total (update.upToId.map toSK)

/-- The composed-prefix list `[p1, p1∘p2, …]` for a whole preemptive
stack. -/
def composedList : List Update → List Update
  | [] => []
  | p :: ps => composePrefixes p ps

/-- `sourceDidFetchUpdate` (lines 913–1120). -/
def sourceDidFetchUpdate (toSK : String → SK) (q0 : WQState)
    (update : DeltaUpdate) : WQState :=
  let queryState := q0.queryState
  let status := q0.status
  let preemptives := q0.preemptiveUpdates
  let preemptivesLength := preemptives.length
  -- We've got an update, so we're no longer in the LOADING state.
  let q := { q0 with status := jsClear status LOADING }
  if queryState = some update.newQueryState then
    -- Already got this update; if the preemptives are all confirmed and
    -- nothing new is pending, unwind them.
    if preemptivesLength ≠ 0 ∧ status &&& DIRTY = 0 then
      let allPre := reduceCompose preemptives
      let q := applyUpdate toSK q (invertUpdate allPre)
      { q with preemptiveUpdates := [] }
    else q
  else if queryState ≠ some update.oldQueryState then setObsolete q
  else
    let q := { q with queryState := some update.newQueryState }
    if preemptives.isEmpty then
      applyUpdate toSK q (normaliseUpdate q.storeKeys q.length?
        { removed := dedupSK (update.removed.map toSK)
          added := update.added.map (fun p => (p.1, toSK p.2))
          total := some update.total
          upToId := update.upToId.map toSK })
    else
      -- 1. Compose all preemptives: [p1, p2, p3] → [p1, p1+p2, p1+p2+p3];
      -- `allPreemptives` is `composed[preemptivesLength - 1]`.
      let composed := composedList preemptives
      let allPre := reduceCompose preemptives
      -- 2. Normalise the server update against the composed preemptives.
      let nu := serverNormalised toSK update q.storeKeys preemptives
      -- 3. Compare to each composed preemptive state.
      let dec : List Update × Bool :=
        if nu.removedStoreKeys.isEmpty ∧ nu.addedStoreKeys.isEmpty then
          (preemptives, true)
        else
          match findMatchIdx nu composed with
          | some i => (preemptives.drop (i + 1), true)
          | none => (preemptives, false)
      if dec.2 then
        let q := { q with preemptiveUpdates := dec.1 }
        let q : WQState :=
          if nu.truncateAtFirstGap then
            let i : Nat := (q.storeKeys.takeWhile truthy).length
            if q.storeKeys.length != i then
              recalculateFetchedWindows
                { q with storeKeys := q.storeKeys.take i } (Int.ofNat i) none
            else q
          else q
        if status &&& DIRTY = 0 ∧ dec.1 ≠ [] then
          -- Not dirty, so no preemptive should remain: unwind the rest.
          let allPre2 := reduceCompose dec.1
          let q := applyUpdate toSK q (invertUpdate allPre2)
          { q with preemptiveUpdates := [] }
        else applyWaitingPackets toSK q
      else
        -- Undo all preemptive updates and apply the server change instead.
        let q := { q with preemptiveUpdates := [] }
        applyUpdate toSK q (composeUpdates (invertUpdate allPre) nu)

/-- The store binding used by the concrete scenarios: id `"idN"` maps to
store key `N` for the handful of ids involved. -/
def demoToSK : String → SK := fun id =>
  if id = "id1" then 1 else if id = "id2" then 2
  else if id = "id3" then 3 else if id = "id4" then 4 else 0

/-- Scenario S4, initial state: a windowed query holding the list
`[sk1, sk2, sk3]` at query state `s0`, fully loaded. -/
def s4Initial : WQState :=
  { storeKeys := [some 1, some 2, some 3], windows := [WINDOW_READY]
    preemptiveUpdates := [], waitingPackets := [], queryState := some "s0"
    status := READY, length? := some 3, windowSize := 30
    canGetDeltaUpdates := true, refreshRequested := false
    queryUpdatedEvents := [], idsLoadedFires := 0 }

/-- Scenario S4 after the client preemptively removes `sk2`. -/
def s4AfterPreemptive : WQState :=
  clientDidGenerateUpdate demoToSK s4Initial
    { removed := [2], added := [], total := none, upToId := none }

/-- Scenario S4's server delta: `{oldQueryState: s0, newQueryState: s1,
removed: ["id2"], added: [], total: 2}`. -/
def s4Delta : DeltaUpdate :=
  { oldQueryState := "s0", newQueryState := "s1", removed := ["id2"]
    added := [], upToId := none, total := 2 }

/-- The first preemptive update of the C1 counterexample state: the
normalised form of a client removal of `sk2` from `[sk1, sk2, sk3]`. -/
def c1P1 : Update :=
  { removedIndexes := [1], removedStoreKeys := [2], addedIndexes := []
    addedStoreKeys := [], truncateAtFirstGap := false, total := 2
    upToId := none }

/-- The second preemptive update of the C1 counterexample state: the
normalised form of a subsequent client removal of `sk3` from
`[sk1, sk3]`. -/
def c1P2 : Update :=
  { removedIndexes := [1], removedStoreKeys := [3], addedIndexes := []
    addedStoreKeys := [], truncateAtFirstGap := false, total := 1
    upToId := none }

/-- The C1 counterexample state: the query of scenario S4 after *two*
preemptive removals (`sk2`, then `sk3`) whose DIRTY flag has since been
cleared — exactly what `sourceWillFetchQuery` does on a refresh when the
store no longer has uncommitted changes of the type (lines 1362–1380).
Its status is `READY | OBSOLETE`. -/
def c1CexState : WQState :=
  { storeKeys := [some 1], windows := [WINDOW_READY]
    preemptiveUpdates := [c1P1, c1P2], waitingPackets := []
    queryState := some "s0", status := READY ||| OBSOLETE
    length? := some 1, windowSize := 30, canGetDeltaUpdates := true
    refreshRequested := false, queryUpdatedEvents := []
    idsLoadedFires := 0 }

/-- The C1 counterexample delta: the server confirms only the first
preemptive removal. -/
def c1CexDelta : DeltaUpdate :=
  { oldQueryState := "s0", newQueryState := "s1", removed := ["id2"]
    added := [], upToId := none, total := 2 }

/-- Scenario S6, initial state: list `[sk1, sk2]` at query state `s0`. -/
def s6Initial : WQState :=
  { storeKeys := [some 1, some 2], windows := [WINDOW_READY]
    preemptiveUpdates := [], waitingPackets := [], queryState := some "s0"
    status := READY, length? := some 2, windowSize := 30
    canGetDeltaUpdates := true, refreshRequested := false
    queryUpdatedEvents := [], idsLoadedFires := 0 }

/-- Scenario S6's id packet, taken at the newer query state `s1`. -/
def s6Packet : IdPacket :=
  { queryState := "s1", position := 0, ids := ["id1", "id2", "id3"]
    total := 3 }

/-- Scenario S6 after the stale-state packet arrives: it must have been
enqueued, not applied. -/
def s6AfterPacket : WQState := sourceDidFetchIds demoToSK s6Initial s6Packet

/-- Scenario S6's delta update, advancing `s0 → s1` (the server added
`id3` at index 2). -/
def s6Delta : DeltaUpdate :=
  { oldQueryState := "s0", newQueryState := "s1", removed := []
    added := [(2, "id3")], upToId := none, total := 3 }

end WQ

namespace St

/-!
### Store — the record cache

From `src/source/datastore/store/Store.js`.  The model covers a
non-nested store (`isNested = false`, no nested stores registered), with
record types whose primary key is the default `id` attribute and which
declare no foreign-reference attributes (`getForeignRefAttrs(Type) = []`,
so both foreign-key conversions are the identity).  Run-loop-queued
work — the `commitChanges` invocations scheduled by `autoCommit`
(`.queue('middle')`), `mayHaveChanges`' deferred `checkForChanges`, type
change events, record property notifications and promise resolutions —
happens on later run-loop turns and is not part of the synchronous state
transition being modelled; the asynchronous completion callbacks handed
to the source are likewise not invoked.  Calls made *to* the source are
recorded in an outbox, and `didError` reports in an error log.
-/

abbrev Id := String

abbrev AccountId := String

/-- A record type's identity: `guid(Type)` in the source. -/
abbrev TypeId := String

/-- An attribute value as the store sees it: opaque except for `isEqual`
(deep structural equality) and the few string reads (`data.accountId`,
`data.id`).  `undef` is JS `undefined`, the value read from a missing
property. -/
inductive Val where
  | str : String → Val
  | num : Int → Val
  | boolVal : Bool → Val
  | null : Val
  | undef : Val
  deriving DecidableEq, Repr

/-- A JS object in insertion order: the data hash of a record, and the
various per-store-key tables. -/
abbrev Data := List (String × Val)

/-- A `_skToChanged` entry: attribute key → has the value changed from the
committed one. -/
abbrev Changed := List (String × Bool)

/-- Property read `m[k]` on a JS object modelled as an association list
(first binding wins; the operations below keep keys unique). -/
def aGet {κ α : Type} [DecidableEq κ] (m : List (κ × α)) (k : κ) : Option α :=
  match m.find? (fun p => p.1 = k) with
  | some p => some p.2
  | none => none

/-- Property write `m[k] = v`: an existing key keeps its position, a fresh
key is appended — JS insertion-order semantics for string keys. -/
def aSet {κ α : Type} [DecidableEq κ] (m : List (κ × α)) (k : κ) (v : α) :
    List (κ × α) :=
  if m.any (fun p => p.1 = k) then
    m.map (fun p => if p.1 = k then (k, v) else p)
  else m ++ [(k, v)]

/-- Property delete `delete m[k]`. -/
def aDel {κ α : Type} [DecidableEq κ] (m : List (κ × α)) (k : κ) :
    List (κ × α) :=
  m.filter (fun p => ¬(p.1 = k))

/-- Property read on a data hash, JS style: a missing property reads as
`undefined`. -/
def dataGet (d : Data) (k : String) : Val :=
  (aGet d k).getD Val.undef

/-- `Object.assign(a, b)`: write every property of `b` onto `a`, in `b`'s
order. -/
def objectAssign (a b : Data) : Data :=
  b.foldl (fun acc p => aSet acc p.1 p.2) a

/-- `data.accountId` read as the string the store treats it as; `none`
when absent or not a string. -/
def dataAccountId (d : Data) : Option AccountId :=
  match aGet d "accountId" with
  | some (.str s) => some s
  | _ => none

/-- JS truthiness of a possibly-absent string (absent and `""` are
falsy). -/
def strTruthy (o : Option String) : Bool := o.getD "" ≠ ""

/-- JS truthiness of an attribute value. -/
def valTruthy : Val → Bool
  | .str s => s ≠ ""
  | .num n => n ≠ 0
  | .boolVal b => b
  | .null => false
  | .undef => false

/-- The metadata of a record type that the store consults.
`clientSettable` is `Record.getClientSettableAttributes(Type)` (the attr
keys without `noSync`, from `record/Record.js`); `defaultValue` is the
attribute's declared default with the source's `undefined → null`
substitution already applied (`revertData`, Store.js lines 1749–1756). -/
structure TypeInfo where
  clientSettable : String → Bool
  defaultValue : String → Val

/-- `filterObject(data, include)` from `core/KeyValue.js` as used with the
client-settable attribute set: keep the properties whose key is
included. -/
def filterObject (d : Data) (keep : String → Bool) : Data :=
  d.filter (fun p => keep p.1)

/-- `filterObject` on a changed-keys hash. -/
def filterChanged (c : Changed) (keep : String → Bool) : Changed :=
  c.filter (fun p => keep p.1)

/-- `getChanged(Type, a, b)` (Store.js lines 182–193): the set of
client-settable keys of `a` whose value differs from `b`'s, or `null`
(`none`) when empty. -/
def getChanged (info : TypeInfo) (a b : Data) : Option Changed :=
  let changed := (a.filter
    (fun p => info.clientSettable p.1 && p.2 != dataGet b p.1)).map
    (fun p => (p.1, true))
  if changed.isEmpty then none else some changed

/-- The per-account bookkeeping (`addAccount`, lines 446–471).  The
`awaitingReady` promise pair and `accountCapabilities` are not modelled
(promises resolve on later turns; capabilities only route the
all-accounts `fetchAll`, which the model takes per account). -/
structure Account where
  status : List (TypeId × Nat)
  clientState : List (TypeId × String)
  serverState : List (TypeId × String)
  typeToIdToSK : List (TypeId × List (Id × SK))
  ignoreServerState : Bool
  deriving DecidableEq, Repr

/-- The `create` group of a change entry (`commitChanges`, line 749). -/
structure CreateGroup where
  storeKeys : List SK
  records : List Data
  deriving DecidableEq, Repr

/-- The `update` group of a change entry (lines 750–755). -/
structure UpdateGroup where
  storeKeys : List SK
  records : List Data
  committed : List Data
  changes : List Changed
  deriving DecidableEq, Repr

/-- A `moveFromAccount` group of a change entry (lines 784–791).
`getChanged` may produce `null`, hence the options. -/
structure MoveGroup where
  copyFromIds : List (Option Id)
  storeKeys : List SK
  records : List Data
  changes : List (Option Changed)
  deriving DecidableEq, Repr

/-- The `destroy` group of a change entry (line 757).  An id is absent
only in unreachable states (a NEW record never reaches the destroy
group). -/
structure DestroyGroup where
  storeKeys : List SK
  ids : List (Option Id)
  deriving DecidableEq, Repr

/-- A per-(type, account) change entry handed to
`source.commitChanges` (lines 744–759). -/
structure ChangeEntry where
  typeId : TypeId
  accountId : AccountId
  primaryKey : String
  create : CreateGroup
  update : UpdateGroup
  moveFromAccount : List (AccountId × MoveGroup)
  destroy : DestroyGroup
  state : Option String
  deriving DecidableEq, Repr

/-- A call the store makes on its source (recorded, not answered: the
completion callbacks run on later turns). -/
inductive SourceCall where
  | commitChanges (changes : List ((TypeId × AccountId) × ChangeEntry))
  | fetchRecord (accountId : AccountId) (typeId : TypeId) (id : Id)
  | refreshRecord (accountId : AccountId) (typeId : TypeId) (id : Id)
  | fetchAllRecords (accountId : AccountId) (typeId : TypeId)
      (sinceState : Option String)
  deriving DecidableEq, Repr

/-- The error names reported through `didError` (lines 39–46). -/
def CANNOT_CREATE_EXISTING_RECORD_ERROR : String :=
  "O.Store Error: Cannot create existing record"

/-- See `CANNOT_CREATE_EXISTING_RECORD_ERROR`. -/
def CANNOT_WRITE_TO_UNREADY_RECORD_ERROR : String :=
  "O.Store Error: Cannot write to unready record"

/-- The in-memory state of a (non-nested) store: the parallel
per-store-key tables of `Store#init` (lines 291–339), the account map,
the commit bookkeeping, the store-key counter, and the observational
outbox/error log.  `skToRecord` maps a store key to its materialised
record instance, of which the store consults only `hasObservers()`
(the stored boolean). -/
structure StoreState where
  typeToSKToId : List (TypeId × List (SK × Option Id))
  skToAccountId : List (SK × AccountId)
  skToType : List (SK × TypeId)
  skToStatus : List (SK × Nat)
  skToData : List (SK × Data)
  skToChanged : List (SK × Changed)
  skToCommitted : List (SK × Data)
  skToRollback : List (SK × Data)
  skToRecord : List (SK × Bool)
  skToLastAccess : List (SK × Nat)
  created : List (SK × Option SK)
  destroyed : List (SK × Option SK)
  accounts : List (AccountId × Account)
  hasChanges : Bool
  isCommitting : Bool
  autoCommit : Bool
  rebaseConflicts : Bool
  nextStoreKey : Nat
  outbox : List SourceCall
  errors : List String
  deriving DecidableEq, Repr

/-- `getStatus` (lines 1090–1092): `_skToStatus[storeKey] || EMPTY`. -/
def getStatus (s : StoreState) (sk : SK) : Nat :=
  (aGet s.skToStatus sk).getD EMPTY

/-- `setStatus` (lines 1106–1123): store the new status when it differs.
The record/nested-store/type-event notifications are deferred or
observational and not modelled. -/
def setStatus (s : StoreState) (sk : SK) (status : Nat) : StoreState :=
  if getStatus s sk ≠ status then
    { s with skToStatus := aSet s.skToStatus sk status }
  else s

/-- `didError` (from `foundation/RunLoop.js`): report a programming error
on the process-wide diagnostic channel; modelled as the error log. -/
def didError (s : StoreState) (name : String) : StoreState :=
  { s with errors := s.errors ++ [name] }

/-- `getStoreKey` (lines 495–522): the stable store key for
(account, type, id), minting a fresh one when the id is absent or
unknown.  The caller supplies a concrete account id (the base store's
primary-account inference throws).  Minting registers the type and
account assignment and the (possibly undefined) id, exactly as lines
508–519. -/
def getStoreKey (s : StoreState) (accountId : AccountId) (typeId : TypeId)
    (id : Option Id) : SK × StoreState :=
  match aGet s.accounts accountId with
  | none => (0, s) -- the source faults here; states considered carry their accounts
  | some account =>
    let idToSk := (aGet account.typeToIdToSK typeId).getD []
    let storeKey? := id.bind (fun i => aGet idToSk i)
    match storeKey? with
    | some sk =>
      -- `typeToIdToSK[typeId] || (typeToIdToSK[typeId] = {})` also creates
      -- the per-type map when absent; recreate that write.
      let account := { account with
        typeToIdToSK := aSet account.typeToIdToSK typeId idToSk }
      (sk, { s with accounts := aSet s.accounts accountId account })
    | none =>
      let sk := s.nextStoreKey
      let skToId := (aGet s.typeToSKToId typeId).getD []
      let skToId := aSet skToId sk id
      let idToSk := match id with
        | some i => aSet idToSk i sk
        | none => idToSk
      let account := { account with
        typeToIdToSK := aSet account.typeToIdToSK typeId idToSk }
      (sk, { s with
        nextStoreKey := s.nextStoreKey + 1
        skToType := aSet s.skToType sk typeId
        skToAccountId := aSet s.skToAccountId sk accountId
        typeToSKToId := aSet s.typeToSKToId typeId skToId
        accounts := aSet s.accounts accountId account })

/-- `getIdFromStoreKey` (lines 537–542):
`(!(status & NEW) && skToId && skToId[storeKey]) || null`. -/
def getIdFromStoreKey (s : StoreState) (sk : SK) : Option Id :=
  if getStatus s sk &&& NEW ≠ 0 then none
  else
    match aGet s.skToType sk with
    | none => none
    | some t =>
      match aGet ((aGet s.typeToSKToId t).getD []) sk with
      | some (some i) => some i
      | _ => none

/-- `getAccountIdFromStoreKey` (lines 555–558):
`data ? data.accountId : _skToAccountId[storeKey]`. -/
def getAccountIdFromStoreKey (s : StoreState) (sk : SK) : Option AccountId :=
  match aGet s.skToData sk with
  | some d => dataAccountId d
  | none => aGet s.skToAccountId sk

/-- `mayUnloadRecord` (lines 1206–1219): only unwatched, clean,
non-committing records may be unloaded.  The nested-store poll is
vacuously true (no nested stores). -/
def mayUnloadRecord (s : StoreState) (sk : SK) : Bool :=
  let hasObservers := (aGet s.skToRecord sk).getD false
  ¬(getStatus s sk &&& (COMMITTING ||| NEW ||| DIRTY) ≠ 0 ∨ hasObservers)

/-- `unloadRecord` (lines 1258–1275): drop the record/rollback/data/
status/last-access entries, providing `mayUnloadRecord` allows it; the
id ↔ store-key mappings are always kept.  (`willUnloadRecord` only
notifies the record instance and nested stores.)  Returns whether the
record was unloaded, with the resulting state. -/
def unloadRecord (s : StoreState) (sk : SK) : Bool × StoreState :=
  if ¬mayUnloadRecord s sk then (false, s)
  else
    (true, { s with
      skToLastAccess := aDel s.skToLastAccess sk
      skToRecord := aDel s.skToRecord sk
      skToRollback := aDel s.skToRollback sk
      skToData := aDel s.skToData sk
      skToStatus := aDel s.skToStatus sk })

/-- `createRecord` (lines 1297–1326).  The `commitChanges` scheduled by
`autoCommit` is queued on the `middle` run-loop queue and happens on a
later turn. -/
def createRecord (s : StoreState) (sk : SK) (data? : Option Data)
    (isCopyOfStoreKey : Option SK) : StoreState :=
  let status := getStatus s sk
  if status ≠ EMPTY ∧ status ≠ DESTROYED then
    didError s CANNOT_CREATE_EXISTING_RECORD_ERROR
  else
    let data := data?.getD []
    let data := aSet data "accountId"
      (match getAccountIdFromStoreKey s sk with
       | some a => .str a
       | none => .undef)
    let s := { s with created := aSet s.created sk isCopyOfStoreKey
                      skToData := aSet s.skToData sk data }
    let s := setStatus s sk (READY ||| NEW ||| DIRTY)
    { s with hasChanges := true }

/-- One turn of `updateData`'s dirty loop (lines 1667–1676): write a
differing value through, recording whether the key now differs from the
committed snapshot. -/
def updateDirtyStep (committed : Data) (st : Data × Changed × Bool)
    (p : String × Val) : Data × Changed × Bool :=
  let current := st.1
  let changed := st.2.1
  let seenChange := st.2.2
  let key := p.1
  let value := p.2
  if value ≠ dataGet current key then
    let kDirty := value ≠ dataGet committed key
    (aSet current key value, aSet changed key kDirty,
     seenChange || kDirty)
  else st

/-- One turn of `updateData`'s non-dirty loop (lines 1704–1711). -/
def updateCleanStep (current : Data) (p : String × Val) : Data :=
  if p.2 ≠ dataGet current p.1 then aSet current p.1 p.2 else current

/-- `updateData` (lines 1636–1727).  Returns whether the data was written,
with the resulting state.  The nested-store copy-on-write does not apply
(non-nested store); the `autoCommit` commit and `mayHaveChanges` check
are queued for later turns. -/
def updateData (s : StoreState) (sk : SK) (data : Data)
    (changeIsDirty : Bool) : Bool × StoreState :=
  let status := getStatus s sk
  match aGet s.skToData sk with
  | none => (false, didError s CANNOT_WRITE_TO_UNREADY_RECORD_ERROR)
  | some current =>
    if changeIsDirty ∧ status &&& READY = 0 then
      (false, didError s CANNOT_WRITE_TO_UNREADY_RECORD_ERROR)
    else
      let s :=
        if changeIsDirty ∧ status ≠ (READY ||| NEW ||| DIRTY) then
          let committed := (aGet s.skToCommitted sk).getD current
          let changed := (aGet s.skToChanged sk).getD []
          -- `_skToCommitted[sk] || (_skToCommitted[sk] = clone(current))`
          let st := data.foldl (updateDirtyStep committed)
            (current, changed, false)
          let current := st.1
          let changed := st.2.1
          -- If we just reset properties to their committed values, check
          -- whether any changes remain.
          let seenChange := st.2.2 || changed.any (fun p => p.2)
          let s := { s with skToData := aSet s.skToData sk current }
          if seenChange then
            let s := { s with skToCommitted := aSet s.skToCommitted sk committed
                              skToChanged := aSet s.skToChanged sk changed }
            setStatus s sk (status ||| DIRTY)
          else
            let s := { s with skToCommitted := aDel s.skToCommitted sk
                              skToChanged := aDel s.skToChanged sk }
            setStatus s sk (jsClear status DIRTY)
        else
          let current := data.foldl updateCleanStep current
          { s with skToData := aSet s.skToData sk current }
      -- If the record is new, update its associated accountId.
      let s :=
        match aGet data "accountId" with
        | some (.str a) =>
          if status = (READY ||| NEW ||| DIRTY) ∧ valTruthy (.str a) then
            { s with skToAccountId := aSet s.skToAccountId sk a }
          else s
        | _ => s
      (true, s)

/-- `setData` (lines 1604–1616). -/
def setData (s : StoreState) (sk : SK) (data : Data) : StoreState :=
  if getStatus s sk &&& READY ≠ 0 then (updateData s sk data false).2
  else { s with skToData := aSet s.skToData sk data }

/-- `destroyRecord` (lines 1391–1423). -/
def destroyRecord (s : StoreState) (sk : SK)
    (ifCopiedStoreKey : Option SK) : StoreState :=
  let status := getStatus s sk
  if status = (READY ||| NEW ||| DIRTY) then
    let s := { s with created := aDel s.created sk }
    let s := setStatus s sk DESTROYED
    (unloadRecord s sk).2
  else if status &&& READY ≠ 0 then
    let s :=
      if status &&& DIRTY ≠ 0 then
        let s := setData s sk ((aGet s.skToCommitted sk).getD [])
        { s with skToCommitted := aDel s.skToCommitted sk
                 skToChanged := aDel s.skToChanged sk }
      else s
    let s := { s with destroyed := aSet s.destroyed sk ifCopiedStoreKey }
    -- Maintain COMMITTING/NEW/OBSOLETE so the pipeline can sequence.
    setStatus s sk
      (DESTROYED ||| DIRTY ||| (status &&& (COMMITTING ||| NEW ||| OBSOLETE)))
  else s

/-- `undestroyRecord` (lines 1425–1448). -/
def undestroyRecord (info : TypeInfo) (s : StoreState) (sk : SK)
    (data? : Option Data) (isCopyOfStoreKey : Option SK) : StoreState :=
  let status := getStatus s sk
  let data? := data?.map (fun d => filterObject d info.clientSettable)
  if status = EMPTY ∨ status = DESTROYED then
    createRecord s sk data? isCopyOfStoreKey
  else
    let s :=
      if jsClear status (OBSOLETE ||| LOADING) = (DESTROYED ||| COMMITTING)
      then
        let s := setStatus s sk (READY ||| NEW ||| COMMITTING)
        { s with created := aSet s.created sk isCopyOfStoreKey }
      else if status &&& DESTROYED ≠ 0 then
        let s := setStatus s sk
          (jsClear status (DESTROYED ||| DIRTY) ||| READY)
        { s with destroyed := aDel s.destroyed sk }
      else s
    match data? with
    | some d => (updateData s sk d true).2
    | none => s

/-- `revertData` (lines 1740–1762): revert to the last committed state,
patching attribute defaults over committed-absent changed keys. -/
def revertData (info : TypeInfo) (s : StoreState) (sk : SK) : StoreState :=
  match aGet s.skToCommitted sk with
  | none => s
  | some committed =>
    let changed := (aGet s.skToChanged sk).getD []
    let committed := changed.foldl
      (fun committed p =>
        if dataGet committed p.1 = Val.undef then
          aSet committed p.1 (info.defaultValue p.1)
        else committed)
      committed
    (updateData s sk committed true).2

/-- `discardChanges` (lines 893–921): destroy the created, revert the
changed, undestroy the destroyed, in the tables' insertion order (the
model iterates the snapshot of keys; the source's live `for … in` visits
the same keys, since the destructors only delete their own entry). -/
def discardChanges (types : TypeId → TypeInfo) (s : StoreState) : StoreState :=
  let s := (s.created.map (fun p => p.1)).foldl
    (fun s sk => destroyRecord s sk none) s
  let s := (s.skToChanged.map (fun p => p.1)).foldl
    (fun s sk =>
      (updateData s sk ((aGet s.skToCommitted sk).getD []) true).2) s
  let s := (s.destroyed.map (fun p => p.1)).foldl
    (fun s sk =>
      undestroyRecord (types ((aGet s.skToType sk).getD "")) s sk
        (aGet s.skToData sk) none) s
  { s with created := [], destroyed := [], hasChanges := false }

/-- Model plumbing: update one account in place (a JS in-place mutation of
`this._accounts[accountId]`); a missing account leaves the store
unchanged. -/
def modifyAccount (s : StoreState) (accountId : AccountId)
    (f : Account → Account) : StoreState :=
  match aGet s.accounts accountId with
  | some a => { s with accounts := aSet s.accounts accountId (f a) }
  | none => s

/-- Model plumbing for `account.status[typeId] |= bit`. -/
def orAccountStatus (s : StoreState) (accountId : AccountId)
    (typeId : TypeId) (bit : Nat) : StoreState :=
  modifyAccount s accountId (fun a =>
    { a with status := aSet a.status typeId ((aGet a.status typeId).getD 0 ||| bit) })

/-- `fetchData` (lines 1540–1575).  The `singleton` id marks the type
LOADING at account level; the completion callback (clearing it) runs on a
later turn. -/
def fetchData (s : StoreState) (sk : SK) : StoreState :=
  let status := getStatus s sk
  if status &&& (LOADING ||| NEW ||| DESTROYED ||| NON_EXISTENT) ≠ 0 then s
  else
    match aGet s.skToType sk with
    | none => s
    | some t =>
      match (aGet ((aGet s.typeToSKToId t).getD []) sk).getD none with
      | none => s
      | some id =>
        let accountId := (getAccountIdFromStoreKey s sk).getD ""
        let s :=
          if id = "singleton" then orAccountStatus s accountId t LOADING
          else s
        if status &&& EMPTY ≠ 0 then
          let s := { s with outbox := s.outbox ++ [.fetchRecord accountId t id] }
          setStatus s sk (EMPTY ||| LOADING)
        else
          let s := { s with outbox := s.outbox ++ [.refreshRecord accountId t id] }
          setStatus s sk (status ||| LOADING)

/-- `fetchAll` (lines 1490–1525), for one explicit account.  The
completion callback (clearing LOADING and checking the server state) runs
on a later turn. -/
def fetchAll (s : StoreState) (accountId : AccountId) (typeId : TypeId)
    (force : Bool) : StoreState :=
  match aGet s.accounts accountId with
  | none => s
  | some a =>
    let status := (aGet a.status typeId).getD 0
    let state := aGet a.clientState typeId
    if status &&& LOADING = 0 ∧ (status &&& READY = 0 ∨ force) then
      let ob := s.outbox ++ [.fetchAllRecords accountId typeId state]
      let s := { s with outbox := ob }
      let a := { a with status := aSet a.status typeId (status ||| LOADING) }
      { s with accounts := aSet s.accounts accountId a }
    else s

/-- `sourceStateDidChange` (lines 2032–2063).  The
`typeId:server:accountId` event only notifies queries and is not
modelled. -/
def sourceStateDidChange (s : StoreState) (accountId : AccountId)
    (typeId : TypeId) (newState : String) : StoreState :=
  match aGet s.accounts accountId with
  | none => s
  | some a =>
    let clientState := aGet a.clientState typeId
    let oldState := aGet a.serverState typeId
    if oldState ≠ some newState then
      let newServer :=
        if strTruthy oldState ∨ ¬strTruthy clientState then newState
        else clientState.getD ""
      let a := { a with serverState := aSet a.serverState typeId newServer }
      let s := { s with accounts := aSet s.accounts accountId a }
      if some newState ≠ clientState ∧ ¬a.ignoreServerState ∧
          ((aGet a.status typeId).getD 0 &&& (LOADING ||| COMMITTING)) = 0 then
        if strTruthy clientState then fetchAll s accountId typeId true else s
      else s
    else s

/-- `sourceDidDestroyRecords` (lines 2436–2451): flip to DESTROYED and
unload — but only when the reverse id ↔ store-key mapping still gives the
same id (protecting immutable-id replace semantics).  An absent id
(unreachable from well-formed callers) mints a throwaway store key,
exactly as `getStoreKey(accountId, Type, undefined)` would. -/
def sddrStep (accountId : AccountId) (typeId : TypeId) (s : StoreState)
    (id? : Option Id) : StoreState :=
  let mint := getStoreKey s accountId typeId id?
  let sk := mint.1
  let s := mint.2
  match getIdFromStoreKey s sk, id? with
  | some a, some b =>
    if a = b then (unloadRecord (setStatus s sk DESTROYED) sk).2 else s
  | _, _ => s

/-- See `sddrStep` for the per-id body. -/
def sourceDidDestroyRecords (s : StoreState) (accountId : AccountId)
    (typeId : TypeId) (ids : List (Option Id)) : StoreState :=
  ids.reverse.foldl (sddrStep accountId typeId) s

/-- `sourceDidFetchPartialRecords` (lines 2211–2297).  The modelled types
have no foreign-reference attributes, so the `_idsAreSKs` optimisation is
moot.  Each iteration consults the live maps, as the source's aliases
do. -/
def sdfprNewId (accountId : AccountId) (typeId : TypeId) (id : Id)
    (sk : SK) (update : Data) (s : StoreState) : StoreState :=
  match aGet update "id" with
  | some (Val.str newId) =>
    if newId ≠ "" ∧ newId ≠ id then
      -- Keep the old id → sk mapping for query changes; add the
      -- new one and repoint sk → id.
      let skToId := (aGet s.typeToSKToId typeId).getD []
      let skToId := aSet skToId sk (some newId)
      let s := { s with typeToSKToId := aSet s.typeToSKToId typeId skToId }
      modifyAccount s accountId (fun a =>
        let m := (aGet a.typeToIdToSK typeId).getD []
        let m := aSet m newId sk
        { a with typeToIdToSK := aSet a.typeToIdToSK typeId m })
    else s
  | _ => s

/-- The conflict-rebase block of `sourceDidFetchPartialRecords` (lines
2257–2280): `some` of the rebased state when there are remaining local
changes, `none` when the update should simply be applied.  Every locally
changed key is reapplied on top, even if `changed[key] === false`
(changed then changed back). -/
def sdfprRebase (s : StoreState) (sk : SK) (merged : Data) :
    Option StoreState :=
  if s.rebaseConflicts then
    let oldData := (aGet s.skToData sk).getD []
    let oldChanged := (aGet s.skToChanged sk).getD []
    let st := oldData.foldl
      (fun (st : Data × Changed × Bool) p =>
        let newData := st.1
        let newChanged := st.2.1
        let clean := st.2.2
        if (aGet oldChanged p.1).isSome then
          if p.2 ≠ dataGet merged p.1 then
            (aSet newData p.1 p.2, aSet newChanged p.1 true,
             false)
          else (aSet newData p.1 p.2, newChanged, clean)
        else (aSet newData p.1 (dataGet merged p.1), newChanged,
          clean))
      ([], [], true)
    if ¬st.2.2 then
      let s := { s with
        skToChanged := aSet s.skToChanged sk st.2.1
        skToCommitted := aSet s.skToCommitted sk merged }
      let s := setData s sk st.1
      some (setStatus s sk (READY ||| DIRTY))
    else none
  else none

/-- The new-id remap of `sourceDidFetchPartialRecords` (lines 2238–2249)
is `sdfprNewId`; the conflict rebase is `sdfprRebase`. -/
def sdfprStep (accountId : AccountId) (typeId : TypeId) (s : StoreState)
    (iu : Id × Data) : StoreState :=
  let id := iu.1
  let update := iu.2
  let idToSk := ((aGet s.accounts accountId).map
    (fun a => (aGet a.typeToIdToSK typeId).getD [])).getD []
  match aGet idToSk id with
  | none => s -- no store key: status undefined, not READY, skip
  | some sk =>
    let status := getStatus s sk
    if status &&& READY = 0 then s
    else if status &&& COMMITTING ≠ 0 then
      -- Unsure what state the update applies on top of: refetch.
      let s := setStatus s sk (jsClear status LOADING)
      fetchData s sk
    else
      let s := sdfprNewId accountId typeId id sk update s
      if status &&& DIRTY ≠ 0 then
        let merged := objectAssign ((aGet s.skToCommitted sk).getD [])
          update
        match sdfprRebase s sk merged with
        | some s => s
        | none =>
          let s := { s with skToChanged := aDel s.skToChanged sk
                            skToCommitted := aDel s.skToCommitted sk }
          let s := (updateData s sk merged false).2
          setStatus s sk READY
      else
        let s := (updateData s sk update false).2
        setStatus s sk READY

/-- See `sdfprStep` for the per-update body. -/
def sourceDidFetchPartialRecords (s : StoreState) (accountId : AccountId)
    (typeId : TypeId) (updates : List (Id × Data)) : StoreState :=
  updates.foldl (sdfprStep accountId typeId) s

/-- One turn of `sourceDidFetchRecords`' downward record loop (lines
2100–2139); the accumulator carries the store, the store keys seen and the
updates map for already-READY records. -/
def sdfrStep (accountId : AccountId) (typeId : TypeId)
    (st : StoreState × List SK × List (Id × Data)) (data : Data) :
    StoreState × List SK × List (Id × Data) :=
  let s := st.1
  let seen := st.2.1
  let updatesAcc := st.2.2
  let id? : Option Id :=
    match aGet data "id" with
    | some (Val.str i) => some i
    | _ => none
  let mint := getStoreKey s accountId typeId id?
  let sk := mint.1
  let s := mint.2
  let status := getStatus s sk
  let seen := seen ++ [sk]
  let data := aSet data "accountId" (.str accountId)
  if status &&& READY ≠ 0 then
    -- Already loaded: process as an update.
    (s, seen, aSet updatesAcc (id?.getD "") data)
  else if status &&& DESTROYED ≠ 0 ∧ status &&& (DIRTY ||| COMMITTING) ≠ 0
  then
    -- Mid-destroy: update the data in case of roll back.
    let s := { s with skToData := aSet s.skToData sk data }
    (setStatus s sk (jsClear status LOADING), seen, updatesAcc)
  else
    -- Anything else is new (possibly recreated after destruction).
    let s := if status &&& EMPTY = 0 then setStatus s sk EMPTY else s
    let s := setData s sk data
    let s := setStatus s sk READY
    ({ s with skToLastAccess := aSet s.skToLastAccess sk 0 }, seen,
      updatesAcc)

/-- The missing-records sweep of `sourceDidFetchRecords` (lines
2141–2164): a READY, non-NEW record of this account absent from an
`isAll` response was destroyed remotely.  (For a READY record the data is
loaded, so the `data.accountId` read cannot fault.) -/
def sdfrMissing (accountId : AccountId) (typeId : TypeId) (seen : List SK)
    (s : StoreState) : StoreState :=
  let skToId := (aGet s.typeToSKToId typeId).getD []
  let destroyedIds := (skToId.filter (fun p =>
    ¬(p.1 ∈ seen) ∧
    getStatus s p.1 &&& READY ≠ 0 ∧ getStatus s p.1 &&& NEW = 0 ∧
    dataAccountId ((aGet s.skToData p.1).getD []) = some accountId)).map
    (fun p => p.2)
  if destroyedIds ≠ [] then
    sourceDidDestroyRecords s accountId typeId destroyedIds
  else s

/-- The state-token merge of `sourceDidFetchRecords` (lines 2166–2186). -/
def sdfrState (accountId : AccountId) (typeId : TypeId)
    (state : Option String) (isAll : Bool) (s : StoreState) : StoreState :=
  match state with
  | some st0 =>
    if st0 = "" then s
    else
      match aGet s.accounts accountId with
      | none => s
      | some a =>
        let oldClient := aGet a.clientState typeId
        let oldServer := aGet a.serverState typeId
        if ¬isAll ∧ strTruthy oldClient ∧ oldClient ≠ some st0 then
          sourceStateDidChange s accountId typeId st0
        else
          let a := { a with clientState := aSet a.clientState typeId st0 }
          let a :=
            if ¬strTruthy oldClient ∨ ¬strTruthy oldServer ∨
                oldClient = oldServer then
              { a with serverState := aSet a.serverState typeId st0 }
            else a
          { s with accounts := aSet s.accounts accountId a }
  | none => s

/-- `sourceDidFetchRecords` (lines 2085–2191).  Records are processed from
the last to the first, as the source's downward loop does (`sdfrStep`);
`updates` is keyed by id (a record without a string id is keyed `""`,
behaving as the source's `"undefined"` key: the partial-records lookup
finds nothing).  The `awaitingReady` promise resolution and the
type-change event are deferred/observational and not modelled. -/
def sourceDidFetchRecords (s : StoreState) (accountId : AccountId)
    (typeId : TypeId) (records : List Data) (state : Option String)
    (isAll : Bool) : StoreState :=
  let st := records.reverse.foldl (sdfrStep accountId typeId) (s, [], [])
  let s := st.1
  let seen := st.2.1
  let updatesAcc := st.2.2
  let s := if isAll then sdfrMissing accountId typeId seen s else s
  let s := sourceDidFetchPartialRecords s accountId typeId updatesAcc
  let s := sdfrState accountId typeId state isAll s
  orAccountStatus s accountId typeId READY

/-- The accumulator state of `commitChanges`' loops: the store, the
change-entry map (keyed by (typeId, accountId), the source's
`typeId + accountId` string), and the `hasChanges` local. -/
abbrev CommitAcc := StoreState × List ((TypeId × AccountId) × ChangeEntry)
  × Bool

/-- `getEntry` of `commitChanges` (lines 737–764): find or create the
change entry for a (type, account), flipping the account's type-level
COMMITTING bit on creation. -/
def commitGetEntry (acc : CommitAcc) (typeId : TypeId)
    (accountId : AccountId) : CommitAcc × ChangeEntry :=
  let s := acc.1
  let changes := acc.2.1
  let hasChanges := acc.2.2
  match aGet changes (typeId, accountId) with
  | some e => ((s, changes, hasChanges), e)
  | none =>
    let account? := aGet s.accounts accountId
    let entry : ChangeEntry :=
      { typeId := typeId, accountId := accountId, primaryKey := "id"
        create := { storeKeys := [], records := [] }
        update := { storeKeys := [], records := [], committed := [], changes := [] }
        moveFromAccount := []
        destroy := { storeKeys := [], ids := [] }
        state := account?.bind (fun a => aGet a.clientState typeId) }
    let s := orAccountStatus s accountId typeId COMMITTING
    ((s, aSet changes (typeId, accountId) entry, true), entry)

/-- The created-records loop body of `commitChanges` (lines 766–801). -/
def commitCreatedStep (types : TypeId → TypeInfo) (acc : CommitAcc)
    (p : SK × Option SK) : CommitAcc :=
  let sk := p.1
  let isCopyOfStoreKey := p.2
  let s0 := acc.1
  let status := getStatus s0 sk
  let t := (aGet s0.skToType sk).getD ""
  let data := (aGet s0.skToData sk).getD []
  let accountId := (dataAccountId data).getD ""
  let ge := commitGetEntry acc t accountId
  let s1 := ge.1.1
  let changes := ge.1.2.1
  let hasChanges := ge.1.2.2
  let entry := ge.2
  let entry :=
    match isCopyOfStoreKey with
    | some copySk =>
      let changed := getChanged (types t) data
        ((aGet s1.skToData copySk).getD [])
      let previousAccountId :=
        (getAccountIdFromStoreKey s1 copySk).getD ""
      let mg := (aGet entry.moveFromAccount previousAccountId).getD
        { copyFromIds := [], storeKeys := [], records := []
          changes := [] }
      let mg := { mg with
        copyFromIds := mg.copyFromIds ++ [getIdFromStoreKey s1 copySk]
        changes := mg.changes ++ [changed]
        storeKeys := mg.storeKeys ++ [sk]
        records := mg.records ++ [data] }
      let mfa := aSet entry.moveFromAccount previousAccountId mg
      { entry with moveFromAccount := mfa }
    | none =>
      let dataF := filterObject data (types t).clientSettable
      let cg : CreateGroup :=
        { storeKeys := entry.create.storeKeys ++ [sk]
          records := entry.create.records ++ [dataF] }
      { entry with create := cg }
  let changes := aSet changes (t, accountId) entry
  (setStatus s1 sk (jsClear status DIRTY ||| COMMITTING), changes,
    hasChanges)

/-- The changed-records loop body of `commitChanges` (lines 803–842). -/
def commitChangedStep (types : TypeId → TypeInfo) (acc : CommitAcc)
    (p : SK × Changed) : CommitAcc :=
  let sk := p.1
  let changedMap := p.2
  let s0 := acc.1
  let status := getStatus s0 sk
  let t := (aGet s0.skToType sk).getD ""
  let changed := filterChanged changedMap (types t).clientSettable
  let previous? := aGet s0.skToCommitted sk
  let s0 := { s0 with skToCommitted := aDel s0.skToCommitted sk }
  -- All changes to noSync attributes: clean without committing.
  if changed.isEmpty then
    (setStatus s0 sk (jsClear status DIRTY), acc.2.1, acc.2.2)
  else
    let data := (aGet s0.skToData sk).getD []
    let accountId := (dataAccountId data).getD ""
    let ge := commitGetEntry (s0, acc.2.1, acc.2.2) t accountId
    let s1 := ge.1.1
    let changes := ge.1.2.1
    let hasChanges := ge.1.2.2
    let entry := ge.2
    let s1 :=
      match previous? with
      | some prev =>
        { s1 with skToRollback := aSet s1.skToRollback sk prev }
      | none => s1 -- the source would store `undefined` here
    let ug : UpdateGroup :=
      { storeKeys := entry.update.storeKeys ++ [sk]
        records := entry.update.records ++ [data]
        committed := entry.update.committed ++ [previous?.getD []]
        changes := entry.update.changes ++ [changed] }
    let entry := { entry with update := ug }
    let changes := aSet changes (t, accountId) entry
    (setStatus s1 sk (jsClear status DIRTY ||| COMMITTING), changes,
      hasChanges)

/-- The destroyed-records loop body of `commitChanges` (lines 844–863);
`createdSnapshot` is the `_created` map captured at entry. -/
def commitDestroyedStep (createdSnapshot : List (SK × Option SK)) (acc : CommitAcc)
    (p : SK × Option SK) : CommitAcc :=
  let sk := p.1
  let ifCopiedStoreKey := p.2
  let s0 := acc.1
  let status := getStatus s0 sk
  -- Skip if already accounted for via a move (the copy's `_created`
  -- value must itself be truthy, i.e. a copy source).
  let handledByMove : Bool :=
    match ifCopiedStoreKey with
    | some copySk =>
      match aGet createdSnapshot copySk with
      | some (some _) => true
      | _ => false
    | none => false
  let acc2 : CommitAcc :=
    if !handledByMove then
      let t := (aGet s0.skToType sk).getD ""
      let accountId :=
        (dataAccountId ((aGet s0.skToData sk).getD [])).getD ""
      let id := (aGet ((aGet s0.typeToSKToId t).getD []) sk).getD none
      let ge := commitGetEntry acc t accountId
      let s1 := ge.1.1
      let changes := ge.1.2.1
      let hasChanges := ge.1.2.2
      let entry := ge.2
      let dg : DestroyGroup :=
        { storeKeys := entry.destroy.storeKeys ++ [sk]
          ids := entry.destroy.ids ++ [id] }
      let entry := { entry with destroy := dg }
      (s1, aSet changes (t, accountId) entry, hasChanges)
    else acc
  (setStatus acc2.1 sk (jsClear status DIRTY ||| COMMITTING),
    acc2.2.1, acc2.2.2)

/-- `commitChanges` (lines 708–882), one synchronous run (the `middle`
queue coalesces runs; the guard is `isCommitting`).  The source call is
recorded in the outbox; its completion callback (clearing the type-level
COMMITTING bits and `isCommitting`) runs on a later turn. -/
def commitChanges (types : TypeId → TypeInfo) (s : StoreState) : StoreState :=
  if s.isCommitting then s
  else
    let s := { s with isCommitting := true }
    let createdSnapshot := s.created
    let changedSnapshot := s.skToChanged
    let destroyedSnapshot := s.destroyed
    -- Created records.
    let acc := createdSnapshot.foldl (commitCreatedStep types)
      ((s, [], false) : CommitAcc)
    -- Updated records.
    let acc := changedSnapshot.foldl (commitChangedStep types) acc
    -- Destroyed records.
    let acc := destroyedSnapshot.foldl
      (commitDestroyedStep createdSnapshot) acc
    let s := acc.1
    let changes := acc.2.1
    let hasChanges := acc.2.2
    let s := { s with skToChanged := [], created := [], destroyed := [] }
    let s :=
      if hasChanges then
        { s with outbox := s.outbox ++ [.commitChanges changes] }
      else { s with isCommitting := false }
    { s with hasChanges := false }

/-- `_changeRecordStoreKey` (lines 1359–1372): move the materialised
record instance (modelled by its `hasObservers` flag) to the new store
key. -/
def changeRecordStoreKey (s : StoreState) (oldStoreKey newStoreKey : SK) :
    StoreState :=
  match aGet s.skToRecord oldStoreKey with
  | some flag =>
    let m := aSet (aDel s.skToRecord oldStoreKey) newStoreKey flag
    { s with skToRecord := m }
  | none => s

/-- `moveRecord` (lines 1341–1357): copy into the target account (minting
a fresh store key unless a copy already exists), swizzle the record
instance, revert and destroy the original.  Returns the copy's store
key. -/
def moveRecord (types : TypeId → TypeInfo) (s : StoreState) (sk : SK)
    (toAccountId : AccountId) (copyStoreKey? : Option SK) :
    SK × StoreState :=
  let t := (aGet s.skToType sk).getD ""
  let copyData := (aGet s.skToData sk).getD []
  let copySk? :=
    match copyStoreKey? with
    | some c => some c
    | none => (aGet s.created sk).getD none
  let minted :=
    match copySk? with
    | some c => (c, undestroyRecord (types t) s c (some copyData) (some sk))
    | none =>
      let mint := getStoreKey s toAccountId t none
      (mint.1, createRecord mint.2 mint.1 (some copyData) (some sk))
  let copySk := minted.1
  let s := minted.2
  let s := changeRecordStoreKey s sk copySk
  -- Revert the original: the change now lives in the copy.
  let s := revertData (types t) s sk
  let s := destroyRecord s sk (some copySk)
  (copySk, s)

/-- `addAccount` (lines 424–475).  `accountCapabilities` is not modelled
(see `Account`). -/
def addAccount (s : StoreState) (accountId : AccountId)
    (replaceAccountId? : Option AccountId) : StoreState :=
  let replacing :=
    match replaceAccountId? with
    | some r =>
      if r ≠ "" then (aGet s.accounts r).map (fun a => (r, a)) else none
    | none => none
  match replacing with
  | some ra =>
    let skToAccountId := s.skToAccountId.map
      (fun p => if p.2 = ra.1 then (p.1, accountId) else p)
    let accounts := aDel s.accounts ra.1
    { s with skToAccountId := skToAccountId
             accounts := aSet accounts accountId ra.2 }
  | none =>
    match aGet s.accounts accountId with
    | some a => { s with accounts := aSet s.accounts accountId a }
    | none =>
      let fresh : Account :=
        { status := [], clientState := [], serverState := []
          typeToIdToSK := [], ignoreServerState := false }
      { s with accounts := aSet s.accounts accountId fresh }

/-!
### The store's operation universe and store-key invariants
-/

/-- One public mutation of the modelled store API, for quantifying over
"any store operation". -/
inductive Op where
  | createRecord (sk : SK) (data? : Option Data) (isCopyOf : Option SK)
  | updateData (sk : SK) (data : Data) (changeIsDirty : Bool)
  | setData (sk : SK) (data : Data)
  | destroyRecord (sk : SK) (ifCopied : Option SK)
  | undestroyRecord (sk : SK) (data? : Option Data) (isCopyOf : Option SK)
  | revertData (sk : SK)
  | discardChanges
  | unloadRecord (sk : SK)
  | getStoreKey (accountId : AccountId) (typeId : TypeId) (id : Option Id)
  | fetchData (sk : SK)
  | fetchAll (accountId : AccountId) (typeId : TypeId) (force : Bool)
  | sourceStateDidChange (accountId : AccountId) (typeId : TypeId)
      (newState : String)
  | sourceDidDestroyRecords (accountId : AccountId) (typeId : TypeId)
      (ids : List (Option Id))
  | sourceDidFetchPartialRecords (accountId : AccountId) (typeId : TypeId)
      (updates : List (Id × Data))
  | sourceDidFetchRecords (accountId : AccountId) (typeId : TypeId)
      (records : List Data) (state : Option String) (isAll : Bool)
  | commitChanges
  | moveRecord (sk : SK) (toAccountId : AccountId) (copySk? : Option SK)
  | addAccount (accountId : AccountId) (replaceAccountId? : Option AccountId)

/-- Dispatch an `Op` on the store, discarding return values.  `types` maps
a type id to its attribute metadata (the source reads it off the `Type`
constructor). -/
def applyOp (types : TypeId → TypeInfo) (op : Op) (s : StoreState) :
    StoreState :=
  match op with
  | .createRecord sk data? copy => createRecord s sk data? copy
  | .updateData sk data dirty => (updateData s sk data dirty).2
  | .setData sk data => setData s sk data
  | .destroyRecord sk c => destroyRecord s sk c
  | .undestroyRecord sk data? c =>
    undestroyRecord (types ((aGet s.skToType sk).getD "")) s sk data? c
  | .revertData sk => revertData (types ((aGet s.skToType sk).getD "")) s sk
  | .discardChanges => discardChanges types s
  | .unloadRecord sk => (unloadRecord s sk).2
  | .getStoreKey a t id => (getStoreKey s a t id).2
  | .fetchData sk => fetchData s sk
  | .fetchAll a t f => fetchAll s a t f
  | .sourceStateDidChange a t st => sourceStateDidChange s a t st
  | .sourceDidDestroyRecords a t ids => sourceDidDestroyRecords s a t ids
  | .sourceDidFetchPartialRecords a t us =>
    sourceDidFetchPartialRecords s a t us
  | .sourceDidFetchRecords a t rs st all =>
    sourceDidFetchRecords s a t rs st all
  | .commitChanges => commitChanges types s
  | .moveRecord sk a c => (moveRecord types s sk a c).2
  | .addAccount a r => addAccount s a r

/-- Run a sequence of store operations. -/
def applyOps (types : TypeId → TypeInfo) (ops : List Op) (s : StoreState) :
    StoreState :=
  ops.foldl (fun s op => applyOp types op s) s

/-- Store-key freshness: every store key with a type assignment is below
the mint counter.  `getStoreKey` establishes this for the keys it mints
and every operation preserves it. -/
def WFT (s : StoreState) : Prop :=
  ∀ p ∈ s.skToType, p.1 < s.nextStoreKey

/-- The type-assignment preservation relation between an input store state
and the state an operation produced from it: the mint counter does not go
backwards, the type assignment of every already-minted store key is
untouched, and freshness is maintained. -/
def Pres (s t : StoreState) : Prop :=
  s.nextStoreKey ≤ t.nextStoreKey ∧
  (∀ sk, sk < s.nextStoreKey → aGet t.skToType sk = aGet s.skToType sk) ∧
  (WFT s → WFT t)

/-- The strong form of `Pres` enjoyed by every operation that does not
mint store keys: the type table and the mint counter are untouched. -/
def Frame (s t : StoreState) : Prop :=
  t.skToType = s.skToType ∧ t.nextStoreKey = s.nextStoreKey

/-!
### Concrete stores for the claim scenarios
-/

/-- Attribute metadata of the scenario type `T`: every attribute is
client-settable; defaults are `null`. -/
def tInfo : TypeInfo :=
  { clientSettable := fun _ => true, defaultValue := fun _ => Val.null }

/-- The scenario type map: every type id resolves to `tInfo`. -/
def types0 : TypeId → TypeInfo := fun _ => tInfo

/-- An account holding the given id → store-key map for type `T`. -/
def mkAccount (m : List (Id × SK)) : Account :=
  { status := [], clientState := [], serverState := []
    typeToIdToSK := [("T", m)], ignoreServerState := false }

/-- A store with one record (store key 1, id `r1`, type `T`, account
`acc1`) in state READY|DIRTY: data `{a:2, b:1}` on committed
`{a:1, b:1}` with `changed = {a}` — the S2 setup. -/
def s2Store (rebase : Bool) : StoreState :=
  { typeToSKToId := [("T", [(1, some "r1")])]
    skToAccountId := [(1, "acc1")]
    skToType := [(1, "T")]
    skToStatus := [(1, READY ||| DIRTY)]
    skToData := [(1, [("a", .num 2), ("b", .num 1)])]
    skToChanged := [(1, [("a", true)])]
    skToCommitted := [(1, [("a", .num 1), ("b", .num 1)])]
    skToRollback := [], skToRecord := [], skToLastAccess := []
    created := [], destroyed := []
    accounts := [("acc1", mkAccount [("r1", 1)])]
    hasChanges := true, isCommitting := false, autoCommit := false
    rebaseConflicts := rebase, nextStoreKey := 5, outbox := [], errors := [] }

/-- The S2 server patch `{a:9, b:9}`. -/
def s2Patch : Data := [("a", .num 9), ("b", .num 9)]

/-- A store with one clean READY record (store key 1, data `{a:1}`). -/
def cleanStore : StoreState :=
  { s2Store true with
    skToStatus := [(1, READY)]
    skToData := [(1, [("a", .num 1)])]
    skToChanged := [], skToCommitted := [], hasChanges := false }

/-- A store with one freshly created record (store key 1, READY|NEW|DIRTY,
in `_created`), as after `createRecord`. -/
def newRecStore : StoreState :=
  { s2Store true with
    skToStatus := [(1, READY ||| NEW ||| DIRTY)]
    skToData := [(1, [("a", .num 1), ("accountId", .str "acc1")])]
    skToChanged := [], skToCommitted := [], created := [(1, none)] }

/-- A store with one DIRTY updated record carrying `accountId` in its
data, ready to commit. -/
def updStore : StoreState :=
  { s2Store true with
    skToData := [(1, [("a", .num 2), ("b", .num 1), ("accountId", .str "acc1")])] }

/-- The S3-style store for the `isAll` fetch: five records of type `T` —
1 (`r1`, READY, acc1, in the response), 2 (`r2`, READY, acc1, absent),
3 (`r3`, READY|NEW, acc1), 4 (`r4`, READY, acc2), 5 (`r5`, LOADING,
no data). -/
def fetchStore : StoreState :=
  { typeToSKToId := [("T", [(1, some "r1"), (2, some "r2"), (3, some "r3"),
      (4, some "r4"), (5, some "r5")])]
    skToAccountId := [(1, "acc1"), (2, "acc1"), (3, "acc1"), (4, "acc2"),
      (5, "acc1")]
    skToType := [(1, "T"), (2, "T"), (3, "T"), (4, "T"), (5, "T")]
    skToStatus := [(1, READY), (2, READY), (3, READY ||| NEW), (4, READY),
      (5, LOADING)]
    skToData := [(1, [("accountId", .str "acc1")]),
      (2, [("accountId", .str "acc1")]), (3, [("accountId", .str "acc1")]),
      (4, [("accountId", .str "acc2")])]
    skToChanged := [], skToCommitted := [], skToRollback := []
    skToRecord := [], skToLastAccess := []
    created := [], destroyed := []
    accounts := [("acc1", mkAccount [("r1", 1), ("r2", 2), ("r3", 3),
        ("r5", 5)]),
      ("acc2", mkAccount [("r4", 4)])]
    hasChanges := false, isCommitting := false, autoCommit := false
    rebaseConflicts := true, nextStoreKey := 6, outbox := [], errors := [] }

/-- The `isAll` response for `fetchStore`: only `r1`. -/
def fetchResponse : List Data := [[("id", .str "r1"), ("a", .num 1)]]

end St

end Overture

namespace Overture.WQ

/-!
### Theorems

One-step reduction lemmas for `wqRun`, then the claim theorems.
-/

/-- One step of `wqRun` on `.drainPackets`. -/
theorem wqRun_drainPackets_succ (toSK : String → SK) (fuel : Nat)
    (q : WQState) :
    wqRun toSK (fuel + 1) (.drainPackets q) =
      wqRun toSK fuel (.drainLoop q.queryState q q.waitingPackets.length
        false) := rfl

/-- One step of `wqRun` on a finished `.drainLoop`. -/
theorem wqRun_drainLoop_zero (toSK : String → SK) (fuel : Nat)
    (qs : Option String) (q : WQState) (didDrop : Bool) :
    wqRun toSK (fuel + 1) (.drainLoop qs q 0 didDrop) =
      if didDrop then fetchObservedWindows q else q := rfl

/-- One step of `wqRun` on `.fetchIds` (the query-state guard of
`sourceDidFetchIds`). -/
theorem wqRun_fetchIds_succ (toSK : String → SK) (fuel : Nat) (q : WQState)
    (args : IdPacket) :
    wqRun toSK (fuel + 1) (.fetchIds q args) =
      if truthyStr q.queryState ∧ q.queryState ≠ some args.queryState then
        if q.canGetDeltaUpdates then
          fetchQ (setObsolete
            { q with waitingPackets := q.waitingPackets ++ [args] })
        else
          wqRun toSK fuel (.fetchIdsRest
            { q with storeKeys := [], windows := [], preemptiveUpdates := [] }
            args)
      else wqRun toSK fuel (.fetchIdsRest q args) := rfl

/-- `_applyWaitingPackets` is the identity on a query with no waiting
packets (the loop never runs and no packet was dropped). -/
theorem applyWaitingPackets_nil (toSK : String → SK) (q : WQState)
    (h : q.waitingPackets = []) : applyWaitingPackets toSK q = q := by
  have hf : wqFuel q = 15 + 1 := by simp [wqFuel, h]
  show wqRun toSK (wqFuel q) (.drainPackets q) = q
  rw [hf, wqRun_drainPackets_succ, h]
  simp only [List.length_nil]
  rw [show (15 : Nat) = 14 + 1 from rfl, wqRun_drainLoop_zero]
  simp


/-- C1 (amended): for a WindowedQuery with pending preemptive updates and
the DIRTY flag set (a preemptive has been applied since the last update
fetch was initiated), when `sourceDidFetchUpdate` receives a server delta
whose `oldQueryState` equals the current `queryState`, whose normalised
form (`serverNormalised`) is non-empty, locates every removed id, and
equals the composition of some prefix of the preemptive updates
(`findMatchIdx … = some i`), and no packets are waiting, then that prefix
is removed from the preemptive stack, the store-key list is left exactly
as the preemptive-applied list (and no further `query:updated` fires),
and `queryState` advances to the update's `newQueryState`.  In the
concrete S4 instance (list `[sk1, sk2, sk3]`, one preemptive removal of
`sk2`, server delta removing `id2` with total 2) the final list is
`[sk1, sk3]`, the preemptive stack is empty, `queryState` is `s1`, and
`query:updated` fired exactly once (by the preemptive application). -/
theorem windowedQuery_matchedPrefix_dirty :
    (∀ (toSK : String → SK) (q : WQState) (update : DeltaUpdate) (i : Nat),
      q.preemptiveUpdates ≠ [] →
      q.queryState = some update.oldQueryState →
      q.queryState ≠ some update.newQueryState →
      q.status &&& DIRTY ≠ 0 →
      q.waitingPackets = [] →
      findMatchIdx
        (serverNormalised toSK update q.storeKeys q.preemptiveUpdates)
        (composedList q.preemptiveUpdates) = some i →
      ¬((serverNormalised toSK update q.storeKeys
          q.preemptiveUpdates).removedStoreKeys.isEmpty = true ∧
        (serverNormalised toSK update q.storeKeys
          q.preemptiveUpdates).addedStoreKeys.isEmpty = true) →
      (serverNormalised toSK update q.storeKeys
        q.preemptiveUpdates).truncateAtFirstGap = false →
      sourceDidFetchUpdate toSK q update =
        { q with status := jsClear q.status LOADING
                 queryState := some update.newQueryState
                 preemptiveUpdates := q.preemptiveUpdates.drop (i + 1) }) ∧
    s4AfterPreemptive.storeKeys = [some 1, some 3] ∧
    s4AfterPreemptive.queryUpdatedEvents.length = 1 ∧
    sourceDidFetchUpdate demoToSK s4AfterPreemptive s4Delta =
      { s4AfterPreemptive with preemptiveUpdates := []
                               queryState := some "s1" } := by
  refine ⟨?_, by decide, by decide, by decide⟩
  intro toSK q update i hpre hold hnew hdirty hwait hmatch hnontriv htrunc
  have hnew' : ¬(some update.oldQueryState = some update.newQueryState) :=
    hold ▸ hnew
  unfold sourceDidFetchUpdate
  rw [hold]
  rw [if_neg hnew']
  rw [if_neg (not_not_intro rfl)]
  have hempty : q.preemptiveUpdates.isEmpty = false := by
    simpa using hpre
  simp only [hempty, Bool.false_eq_true, if_false, hmatch, htrunc,
    if_neg hnontriv]
  rw [if_pos trivial, if_neg (fun h => hdirty h.1)]
  exact applyWaitingPackets_nil toSK _ hwait

/-- C1, witness: the generic part of `windowedQuery_matchedPrefix_dirty`
applied to the concrete S4 instance (matched prefix of length 1 = the
whole stack). -/
theorem windowedQuery_matchedPrefix_dirty_witness :
    s4AfterPreemptive.preemptiveUpdates ≠ [] ∧
    s4AfterPreemptive.status &&& DIRTY ≠ 0 ∧
    sourceDidFetchUpdate demoToSK s4AfterPreemptive s4Delta =
      { s4AfterPreemptive with
          status := jsClear s4AfterPreemptive.status LOADING
          queryState := some s4Delta.newQueryState
          preemptiveUpdates := s4AfterPreemptive.preemptiveUpdates.drop 1 } :=
  ⟨by decide, by decide,
    windowedQuery_matchedPrefix_dirty.1 demoToSK s4AfterPreemptive s4Delta 0
      (by decide) (by decide) (by decide) (by decide) (by decide)
      (by decide) (by decide) (by decide)⟩

/-- C1, counterexample to the claim as stated: in `c1CexState` — reachable
by two preemptive removals whose DIRTY flag `sourceWillFetchQuery` has
since cleared — the server delta's normalised form equals the composition
of the prefix `[p1]` of the preemptive updates and `oldQueryState` matches,
yet the store-key list does *not* stay at the preemptive-applied list and
more than the matched prefix is dropped: the code additionally unwinds the
remaining preemptives because DIRTY is clear (lines 1098–1106). -/
theorem windowedQuery_matchedPrefix_counterexample :
    c1CexState.preemptiveUpdates ≠ [] ∧
    c1CexState.queryState = some c1CexDelta.oldQueryState ∧
    updateIsEqual
      (serverNormalised demoToSK c1CexDelta c1CexState.storeKeys
        c1CexState.preemptiveUpdates)
      ((composedList c1CexState.preemptiveUpdates).getD 0
        (reduceCompose c1CexState.preemptiveUpdates)) = true ∧
    (sourceDidFetchUpdate demoToSK c1CexState c1CexDelta).storeKeys ≠
      c1CexState.storeKeys ∧
    (sourceDidFetchUpdate demoToSK c1CexState c1CexDelta).preemptiveUpdates ≠
      c1CexState.preemptiveUpdates.drop 1 := by
  decide

/-- C5: when `sourceDidFetchIds` receives a packet whose `queryState`
differs from the query's current non-empty `queryState` and
`canGetDeltaUpdates` is true, the packet is appended to `waitingPackets`,
the query is marked OBSOLETE (and a refresh requested), and the store-key
list, `queryState` and everything else are untouched; and in the concrete
S6 instance, after a `sourceDidFetchUpdate` advances `queryState` to the
packet's `queryState`, the packet is replayed through `sourceDidFetchIds`
(the queue drains, the list takes the packet's ids and `query:idsLoaded`
fires). -/
theorem windowedQuery_stalePacket_enqueued_replayed :
    (∀ (toSK : String → SK) (q : WQState) (p : IdPacket) (s : String),
      q.queryState = some s → s ≠ "" → s ≠ p.queryState →
      q.canGetDeltaUpdates = true →
      sourceDidFetchIds toSK q p =
        { q with waitingPackets := q.waitingPackets ++ [p]
                 status := q.status ||| OBSOLETE
                 refreshRequested := true }) ∧
    s6AfterPacket =
      { s6Initial with waitingPackets := [s6Packet]
                       status := READY ||| OBSOLETE
                       refreshRequested := true } ∧
    sourceDidFetchUpdate demoToSK s6AfterPacket s6Delta =
      { s6Initial with storeKeys := [some 1, some 2, some 3]
                       queryState := some "s1"
                       status := READY ||| OBSOLETE
                       refreshRequested := true
                       length? := some 3
                       queryUpdatedEvents := [([], [], [3], [2])]
                       idsLoadedFires := 1 } := by
  refine ⟨?_, by decide, by decide⟩
  intro toSK q p s hqs hs hne hdelta
  have hf : wqFuel q = (wqFuel q - 1) + 1 := by unfold wqFuel; omega
  show wqRun toSK (wqFuel q) (.fetchIds q p) = _
  rw [hf, wqRun_fetchIds_succ]
  have hc : truthyStr q.queryState = true ∧
      q.queryState ≠ some p.queryState := by
    constructor
    · simp [truthyStr, hqs, hs]
    · rw [hqs]; simpa using hne
  rw [if_pos hc, if_pos hdelta]
  rfl

/-- C5, witness: the generic part of
`windowedQuery_stalePacket_enqueued_replayed` applied to the S6 instance. -/
theorem windowedQuery_stalePacket_enqueued_replayed_witness :
    s6Initial.queryState = some "s0" ∧
    sourceDidFetchIds demoToSK s6Initial s6Packet =
      { s6Initial with
          waitingPackets := s6Initial.waitingPackets ++ [s6Packet]
          status := s6Initial.status ||| OBSOLETE
          refreshRequested := true } :=
  ⟨rfl, windowedQuery_stalePacket_enqueued_replayed.1 demoToSK s6Initial
    s6Packet "s0" rfl (by decide) (by decide) rfl⟩

/-- C10: `invertUpdate` is an involution: one application swaps the
removed and added index/store-key arrays and adjusts `total` by
(number removed − number added) of the original update, and a second
application restores the original update in every field. -/
theorem invertUpdate_involution (u : Update) :
    (invertUpdate u).removedIndexes = u.addedIndexes ∧
    (invertUpdate u).removedStoreKeys = u.addedStoreKeys ∧
    (invertUpdate u).addedIndexes = u.removedIndexes ∧
    (invertUpdate u).addedStoreKeys = u.removedStoreKeys ∧
    (invertUpdate u).total =
      u.total + u.removedStoreKeys.length - u.addedStoreKeys.length ∧
    invertUpdate (invertUpdate u) = u := by
  refine ⟨rfl, rfl, rfl, rfl, rfl, ?_⟩
  simp [invertUpdate]

end Overture.WQ


namespace Overture.St

/-!
### Association-list lemmas
-/

theorem aGet_cons {κ α : Type} [DecidableEq κ] (p : κ × α)
    (m : List (κ × α)) (k : κ) :
    aGet (p :: m) k = if p.1 = k then some p.2 else aGet m k := by
  simp only [aGet, List.find?]
  by_cases h : p.1 = k
  · simp [h]
  · simp [h]

theorem aGet_eq_none {κ α : Type} [DecidableEq κ] (m : List (κ × α))
    (k : κ) (h : ¬ m.any (fun p => p.1 = k)) : aGet m k = none := by
  induction m with
  | nil => rfl
  | cons p tl ih =>
    simp only [List.any_cons, Bool.or_eq_true, decide_eq_true_eq] at h
    push_neg at h
    simp [aGet_cons, h.1, ih (by simpa using h.2)]

theorem aGet_aSet_self {κ α : Type} [DecidableEq κ] (m : List (κ × α))
    (k : κ) (v : α) : aGet (aSet m k v) k = some v := by
  unfold aSet
  by_cases hm : m.any (fun p => p.1 = k)
  · rw [if_pos hm]
    induction m with
    | nil => simp at hm
    | cons p tl ih =>
      by_cases hp : p.1 = k
      · simp [aGet_cons, hp]
      · have hm' : tl.any (fun p => p.1 = k) := by
          simpa [hp] using hm
        simp [aGet_cons, hp, ih hm']
  · rw [if_neg hm]
    induction m with
    | nil => simp [aGet_cons]
    | cons p tl ih =>
      simp only [List.any_cons, Bool.or_eq_true, decide_eq_true_eq] at hm
      push_neg at hm
      simp [aGet_cons, hm.1, ih (by simpa using hm.2)]

theorem aGet_aSet_ne {κ α : Type} [DecidableEq κ] (m : List (κ × α))
    (k k' : κ) (v : α) (h : k' ≠ k) : aGet (aSet m k v) k' = aGet m k' := by
  have hkk : ¬ k = k' := fun hh => h hh.symm
  unfold aSet
  by_cases hm : m.any (fun p => p.1 = k)
  · rw [if_pos hm]
    clear hm
    induction m with
    | nil => rfl
    | cons p tl ih =>
      by_cases hp : p.1 = k
      · have hp' : ¬ p.1 = k' := by rw [hp]; exact hkk
        simp [aGet_cons, hp, hp', hkk, ih]
      · by_cases hk' : p.1 = k'
        · simp [aGet_cons, hp, hk', hkk, h]
        · simp [aGet_cons, hp, hk', ih]
  · rw [if_neg hm]
    clear hm
    induction m with
    | nil => simp [aGet_cons, hkk, aGet]
    | cons p tl ih =>
      by_cases hk' : p.1 = k'
      · simp [aGet_cons, hk']
      · simp [aGet_cons, hk', ih]

theorem aGet_aDel_ne {κ α : Type} [DecidableEq κ] (m : List (κ × α))
    (k k' : κ) (h : k' ≠ k) : aGet (aDel m k) k' = aGet m k' := by
  have hkk : ¬ k = k' := fun hh => h hh.symm
  induction m with
  | nil => rfl
  | cons p tl ih =>
    simp only [aDel, List.filter_cons] at ih ⊢
    simp only [decide_not] at ih
    by_cases hp : p.1 = k
    · have hp' : ¬ p.1 = k' := by rw [hp]; exact hkk
      simp [hp, hp', hkk, aGet_cons, ih]
    · by_cases hk' : p.1 = k'
      · simp [hp, hk', hkk, h, aGet_cons]
      · simp [hp, hk', hkk, aGet_cons, ih]

theorem aGet_aDel_self {κ α : Type} [DecidableEq κ] (m : List (κ × α))
    (k : κ) : aGet (aDel m k) k = none := by
  induction m with
  | nil => rfl
  | cons p tl ih =>
    simp only [aDel, List.filter_cons] at ih ⊢
    simp only [decide_not] at ih
    by_cases hp : p.1 = k
    · simp [hp, ih]
    · simp [hp, aGet_cons, ih]

theorem mem_aSet {κ α : Type} [DecidableEq κ] (m : List (κ × α))
    (k : κ) (v : α) (p : κ × α) (h : p ∈ aSet m k v) :
    p ∈ m ∨ p = (k, v) := by
  unfold aSet at h
  by_cases hm : m.any (fun q => q.1 = k)
  · rw [if_pos hm] at h
    rcases List.mem_map.mp h with ⟨q, hq, hqe⟩
    by_cases hqk : q.1 = k
    · right
      rw [if_pos hqk] at hqe
      exact hqe.symm
    · left
      rw [if_neg hqk] at hqe
      exact hqe ▸ hq
  · rw [if_neg hm] at h
    rcases List.mem_append.mp h with h | h
    · exact Or.inl h
    · right
      simpa using h


/-- `any`-presence of a key is membership in the key list. -/
theorem any_key_iff {κ α : Type} [DecidableEq κ] (m : List (κ × α))
    (k : κ) : m.any (fun p => p.1 = k) = true ↔ k ∈ m.map Prod.fst := by
  simp only [List.any_eq_true, List.mem_map, decide_eq_true_eq]

/-- A key not in the key list reads as absent. -/
theorem aGet_eq_none_of_not_mem {κ α : Type} [DecidableEq κ]
    (m : List (κ × α)) (k : κ) (h : k ∉ m.map Prod.fst) : aGet m k = none :=
  aGet_eq_none m k (fun ha => h ((any_key_iff m k).mp ha))

/-- A present key reads as some value. -/
theorem aGet_isSome_of_mem {κ α : Type} [DecidableEq κ]
    (m : List (κ × α)) (k : κ) (h : k ∈ m.map Prod.fst) :
    (aGet m k).isSome := by
  induction m with
  | nil => simp at h
  | cons p tl ih =>
    rw [aGet_cons]
    by_cases hp : p.1 = k
    · simp [hp]
    · simp only [List.map_cons, List.mem_cons] at h
      rcases h with h | h
      · exact absurd h.symm hp
      · simpa [hp] using ih h

/-- Writing an existing key keeps the key list. -/
theorem keys_aSet_of_mem {κ α : Type} [DecidableEq κ] (m : List (κ × α))
    (k : κ) (v : α) (h : k ∈ m.map Prod.fst) :
    (aSet m k v).map Prod.fst = m.map Prod.fst := by
  unfold aSet
  rw [if_pos ((any_key_iff m k).mpr h), List.map_map]
  apply List.map_congr_left
  intro p _
  by_cases hp : p.1 = k
  · simp [hp]
  · simp [hp]

/-- Writing a fresh key appends it to the key list. -/
theorem keys_aSet_of_not_mem {κ α : Type} [DecidableEq κ]
    (m : List (κ × α)) (k : κ) (v : α) (h : k ∉ m.map Prod.fst) :
    (aSet m k v).map Prod.fst = m.map Prod.fst ++ [k] := by
  unfold aSet
  rw [if_neg (fun ha => h ((any_key_iff m k).mp ha))]
  simp

/-- `aSet` keeps the key list duplicate-free. -/
theorem nodup_keys_aSet {κ α : Type} [DecidableEq κ] (m : List (κ × α))
    (k : κ) (v : α) (h : (m.map Prod.fst).Nodup) :
    ((aSet m k v).map Prod.fst).Nodup := by
  by_cases hm : k ∈ m.map Prod.fst
  · rw [keys_aSet_of_mem m k v hm]
    exact h
  · rw [keys_aSet_of_not_mem m k v hm]
    refine List.nodup_append.mpr ⟨h, List.nodup_singleton _, ?_⟩
    intro a ha hb
    simp only [List.mem_singleton] at hb
    exact hm (hb ▸ ha)

/-- Association lists with the same key sequence (duplicate-free) and the
same reads are equal. -/
theorem assoc_ext {κ α : Type} [DecidableEq κ] (m₁ m₂ : List (κ × α))
    (hk : m₁.map Prod.fst = m₂.map Prod.fst)
    (hnd : (m₂.map Prod.fst).Nodup)
    (hp : ∀ k, aGet m₁ k = aGet m₂ k) : m₁ = m₂ := by
  induction m₂ generalizing m₁ with
  | nil =>
    cases m₁ with
    | nil => rfl
    | cons p tl => simp at hk
  | cons q tl ih =>
    cases m₁ with
    | nil => simp at hk
    | cons p tl₁ =>
      simp only [List.map_cons, List.cons.injEq] at hk
      obtain ⟨hph, hkt⟩ := hk
      have hv := hp q.1
      rw [aGet_cons, aGet_cons, if_pos hph, if_pos rfl] at hv
      injection hv with hv
      simp only [List.map_cons, List.nodup_cons] at hnd
      have hknotin1 : q.1 ∉ tl₁.map Prod.fst := hkt ▸ hnd.1
      have hpt : ∀ k, aGet tl₁ k = aGet tl k := by
        intro k
        by_cases hkq : q.1 = k
        · rw [← hkq, aGet_eq_none_of_not_mem tl₁ q.1 hknotin1,
            aGet_eq_none_of_not_mem tl q.1 hnd.1]
        · have hthis := hp k
          rw [aGet_cons, aGet_cons, if_neg (hph ▸ hkq), if_neg hkq] at hthis
          exact hthis
      have hteq := ih tl₁ hkt hnd.2 hpt
      have hpq : p = q := Prod.ext hph hv
      rw [hpq, hteq]

end Overture.St


namespace Overture.St

/-!
### Frame lemmas: operations that do not mint store keys leave the type
table and the mint counter untouched.
-/

@[simp]
theorem skToType_setStatus (s : StoreState) (sk : SK) (st : Nat) :
    (setStatus s sk st).skToType = s.skToType := by
  unfold setStatus
  split <;> rfl

@[simp]
theorem nextStoreKey_setStatus (s : StoreState) (sk : SK) (st : Nat) :
    (setStatus s sk st).nextStoreKey = s.nextStoreKey := by
  unfold setStatus
  split <;> rfl

@[simp]
theorem skToType_didError (s : StoreState) (e : String) :
    (didError s e).skToType = s.skToType := rfl

@[simp]
theorem nextStoreKey_didError (s : StoreState) (e : String) :
    (didError s e).nextStoreKey = s.nextStoreKey := rfl

@[simp]
theorem skToType_unloadRecord (s : StoreState) (sk : SK) :
    (unloadRecord s sk).2.skToType = s.skToType := by
  unfold unloadRecord
  split <;> rfl

@[simp]
theorem nextStoreKey_unloadRecord (s : StoreState) (sk : SK) :
    (unloadRecord s sk).2.nextStoreKey = s.nextStoreKey := by
  unfold unloadRecord
  split <;> rfl

@[simp]
theorem skToType_createRecord (s : StoreState) (sk : SK) (d : Option Data)
    (c : Option SK) : (createRecord s sk d c).skToType = s.skToType := by
  unfold createRecord
  (repeat' split) <;> (try simp) <;> (repeat' split) <;> (try simp)

@[simp]
theorem nextStoreKey_createRecord (s : StoreState) (sk : SK)
    (d : Option Data) (c : Option SK) :
    (createRecord s sk d c).nextStoreKey = s.nextStoreKey := by
  unfold createRecord
  (repeat' split) <;> (try simp) <;> (repeat' split) <;> (try simp)

@[simp]
theorem skToType_updateData (s : StoreState) (sk : SK) (d : Data)
    (cd : Bool) : (updateData s sk d cd).2.skToType = s.skToType := by
  unfold updateData
  (repeat' split) <;> (try simp) <;> (repeat' split) <;> (try simp)

@[simp]
theorem nextStoreKey_updateData (s : StoreState) (sk : SK) (d : Data)
    (cd : Bool) : (updateData s sk d cd).2.nextStoreKey = s.nextStoreKey := by
  unfold updateData
  (repeat' split) <;> (try simp) <;> (repeat' split) <;> (try simp)

@[simp]
theorem skToType_setData (s : StoreState) (sk : SK) (d : Data) :
    (setData s sk d).skToType = s.skToType := by
  unfold setData
  split <;> simp

@[simp]
theorem nextStoreKey_setData (s : StoreState) (sk : SK) (d : Data) :
    (setData s sk d).nextStoreKey = s.nextStoreKey := by
  unfold setData
  split <;> simp

@[simp]
theorem skToType_destroyRecord (s : StoreState) (sk : SK) (c : Option SK) :
    (destroyRecord s sk c).skToType = s.skToType := by
  unfold destroyRecord
  (repeat' split) <;> (try simp) <;> (repeat' split) <;> (try simp)

@[simp]
theorem nextStoreKey_destroyRecord (s : StoreState) (sk : SK)
    (c : Option SK) : (destroyRecord s sk c).nextStoreKey = s.nextStoreKey := by
  unfold destroyRecord
  (repeat' split) <;> (try simp) <;> (repeat' split) <;> (try simp)

@[simp]
theorem skToType_undestroyRecord (info : TypeInfo) (s : StoreState)
    (sk : SK) (d : Option Data) (c : Option SK) :
    (undestroyRecord info s sk d c).skToType = s.skToType := by
  unfold undestroyRecord
  (repeat' split) <;> (try simp) <;> (repeat' split) <;> (try simp)

@[simp]
theorem nextStoreKey_undestroyRecord (info : TypeInfo) (s : StoreState)
    (sk : SK) (d : Option Data) (c : Option SK) :
    (undestroyRecord info s sk d c).nextStoreKey = s.nextStoreKey := by
  unfold undestroyRecord
  (repeat' split) <;> (try simp) <;> (repeat' split) <;> (try simp)

@[simp]
theorem skToType_revertData (info : TypeInfo) (s : StoreState) (sk : SK) :
    (revertData info s sk).skToType = s.skToType := by
  unfold revertData
  (repeat' split) <;> (try simp) <;> (repeat' split) <;> (try simp)

@[simp]
theorem nextStoreKey_revertData (info : TypeInfo) (s : StoreState)
    (sk : SK) : (revertData info s sk).nextStoreKey = s.nextStoreKey := by
  unfold revertData
  (repeat' split) <;> (try simp) <;> (repeat' split) <;> (try simp)

/-- Fold preservation of an untouched `skToType`. -/
theorem skToType_foldl {σ α : Type} (π : σ → StoreState) (f : σ → α → σ)
    (h : ∀ a x, (π (f a x)).skToType = (π a).skToType) (l : List α) (a : σ) :
    (π (l.foldl f a)).skToType = (π a).skToType := by
  induction l generalizing a with
  | nil => rfl
  | cons x xs ih => rw [List.foldl_cons, ih (f a x), h a x]

/-- Fold preservation of an untouched `nextStoreKey`. -/
theorem nextStoreKey_foldl {σ α : Type} (π : σ → StoreState) (f : σ → α → σ)
    (h : ∀ a x, (π (f a x)).nextStoreKey = (π a).nextStoreKey) (l : List α)
    (a : σ) : (π (l.foldl f a)).nextStoreKey = (π a).nextStoreKey := by
  induction l generalizing a with
  | nil => rfl
  | cons x xs ih => rw [List.foldl_cons, ih (f a x), h a x]

/-- `skToType_foldl` at the identity projection. -/
theorem skToType_foldlS {α : Type} (f : StoreState → α → StoreState)
    (h : ∀ a x, (f a x).skToType = a.skToType) (l : List α) (a : StoreState) :
    (l.foldl f a).skToType = a.skToType := skToType_foldl id f h l a

/-- `nextStoreKey_foldl` at the identity projection. -/
theorem nextStoreKey_foldlS {α : Type} (f : StoreState → α → StoreState)
    (h : ∀ a x, (f a x).nextStoreKey = a.nextStoreKey) (l : List α)
    (a : StoreState) : (l.foldl f a).nextStoreKey = a.nextStoreKey :=
  nextStoreKey_foldl id f h l a

@[simp]
theorem skToType_discardChanges (types : TypeId → TypeInfo)
    (s : StoreState) : (discardChanges types s).skToType = s.skToType := by
  unfold discardChanges
  rw [show ∀ t : StoreState,
      ({ t with created := [], destroyed := [], hasChanges := false } :
        StoreState).skToType = t.skToType from fun t => rfl]
  rw [skToType_foldlS _ (fun a x => by simp)]
  rw [skToType_foldlS _ (fun a x => by simp)]
  rw [skToType_foldlS _ (fun a x => by simp)]

@[simp]
theorem nextStoreKey_discardChanges (types : TypeId → TypeInfo)
    (s : StoreState) :
    (discardChanges types s).nextStoreKey = s.nextStoreKey := by
  unfold discardChanges
  rw [show ∀ t : StoreState,
      ({ t with created := [], destroyed := [], hasChanges := false } :
        StoreState).nextStoreKey = t.nextStoreKey from fun t => rfl]
  rw [nextStoreKey_foldlS _ (fun a x => by simp)]
  rw [nextStoreKey_foldlS _ (fun a x => by simp)]
  rw [nextStoreKey_foldlS _ (fun a x => by simp)]

end Overture.St


namespace Overture.St

@[simp]
theorem skToType_modifyAccount (s : StoreState) (a : AccountId)
    (f : Account → Account) : (modifyAccount s a f).skToType = s.skToType := by
  unfold modifyAccount
  split <;> rfl

@[simp]
theorem nextStoreKey_modifyAccount (s : StoreState) (a : AccountId)
    (f : Account → Account) :
    (modifyAccount s a f).nextStoreKey = s.nextStoreKey := by
  unfold modifyAccount
  split <;> rfl

@[simp]
theorem skToType_orAccountStatus (s : StoreState) (a : AccountId)
    (t : TypeId) (b : Nat) : (orAccountStatus s a t b).skToType = s.skToType := by
  unfold orAccountStatus
  simp

@[simp]
theorem nextStoreKey_orAccountStatus (s : StoreState) (a : AccountId)
    (t : TypeId) (b : Nat) :
    (orAccountStatus s a t b).nextStoreKey = s.nextStoreKey := by
  unfold orAccountStatus
  simp

@[simp]
theorem skToType_fetchData (s : StoreState) (sk : SK) :
    (fetchData s sk).skToType = s.skToType := by
  unfold fetchData
  (repeat' split) <;> (try simp) <;> (repeat' split) <;> (try simp)

@[simp]
theorem nextStoreKey_fetchData (s : StoreState) (sk : SK) :
    (fetchData s sk).nextStoreKey = s.nextStoreKey := by
  unfold fetchData
  (repeat' split) <;> (try simp) <;> (repeat' split) <;> (try simp)

@[simp]
theorem skToType_fetchAll (s : StoreState) (a : AccountId) (t : TypeId)
    (force : Bool) : (fetchAll s a t force).skToType = s.skToType := by
  unfold fetchAll
  (repeat' split) <;> (try simp) <;> (repeat' split) <;> (try simp)

@[simp]
theorem nextStoreKey_fetchAll (s : StoreState) (a : AccountId) (t : TypeId)
    (force : Bool) : (fetchAll s a t force).nextStoreKey = s.nextStoreKey := by
  unfold fetchAll
  (repeat' split) <;> (try simp) <;> (repeat' split) <;> (try simp)

@[simp]
theorem skToType_sourceStateDidChange (s : StoreState) (a : AccountId)
    (t : TypeId) (ns : String) :
    (sourceStateDidChange s a t ns).skToType = s.skToType := by
  unfold sourceStateDidChange
  (repeat' split) <;> (try simp) <;> (repeat' split) <;> (try simp)

@[simp]
theorem nextStoreKey_sourceStateDidChange (s : StoreState) (a : AccountId)
    (t : TypeId) (ns : String) :
    (sourceStateDidChange s a t ns).nextStoreKey = s.nextStoreKey := by
  unfold sourceStateDidChange
  (repeat' split) <;> (try simp) <;> (repeat' split) <;> (try simp)

@[simp]
theorem skToType_sdfprNewId (a : AccountId) (t : TypeId) (id : Id) (sk : SK)
    (u : Data) (s : StoreState) :
    (sdfprNewId a t id sk u s).skToType = s.skToType := by
  unfold sdfprNewId
  (repeat' split) <;> (try simp) <;> (repeat' split) <;> (try simp)

@[simp]
theorem nextStoreKey_sdfprNewId (a : AccountId) (t : TypeId) (id : Id)
    (sk : SK) (u : Data) (s : StoreState) :
    (sdfprNewId a t id sk u s).nextStoreKey = s.nextStoreKey := by
  unfold sdfprNewId
  (repeat' split) <;> (try simp) <;> (repeat' split) <;> (try simp)

/-- A successful rebase leaves the type table and mint counter alone. -/
theorem frame_of_sdfprRebase (s : StoreState) (sk : SK) (m : Data)
    (t : StoreState) (h : sdfprRebase s sk m = some t) :
    t.skToType = s.skToType ∧ t.nextStoreKey = s.nextStoreKey := by
  unfold sdfprRebase at h
  dsimp only at h
  split at h
  · split at h
    · injection h with h
      subst h
      constructor <;> simp
    · exact absurd h (by simp)
  · exact absurd h (by simp)

@[simp]
theorem skToType_sdfprStep (a : AccountId) (t : TypeId) (s : StoreState)
    (iu : Id × Data) : (sdfprStep a t s iu).skToType = s.skToType := by
  unfold sdfprStep
  dsimp only
  split
  · rfl
  · split
    · rfl
    · split
      · first | rfl | simp
      · try dsimp only
        split
        · split
          next s' hr => simp [(frame_of_sdfprRebase _ _ _ _ hr).1]
          · first | rfl | simp
        · first | rfl | simp

@[simp]
theorem nextStoreKey_sdfprStep (a : AccountId) (t : TypeId) (s : StoreState)
    (iu : Id × Data) : (sdfprStep a t s iu).nextStoreKey = s.nextStoreKey := by
  unfold sdfprStep
  dsimp only
  split
  · rfl
  · split
    · rfl
    · split
      · first | rfl | simp
      · try dsimp only
        split
        · split
          next s' hr => simp [(frame_of_sdfprRebase _ _ _ _ hr).2]
          · first | rfl | simp
        · first | rfl | simp

@[simp]
theorem skToType_sourceDidFetchPartialRecords (s : StoreState)
    (a : AccountId) (t : TypeId) (us : List (Id × Data)) :
    (sourceDidFetchPartialRecords s a t us).skToType = s.skToType := by
  unfold sourceDidFetchPartialRecords
  exact skToType_foldlS _ (fun a x => by simp) _ _

@[simp]
theorem nextStoreKey_sourceDidFetchPartialRecords (s : StoreState)
    (a : AccountId) (t : TypeId) (us : List (Id × Data)) :
    (sourceDidFetchPartialRecords s a t us).nextStoreKey = s.nextStoreKey := by
  unfold sourceDidFetchPartialRecords
  exact nextStoreKey_foldlS _ (fun a x => by simp) _ _

@[simp]
theorem skToType_commitGetEntry (acc : CommitAcc) (t : TypeId)
    (a : AccountId) : (commitGetEntry acc t a).1.1.skToType = acc.1.skToType := by
  unfold commitGetEntry
  (repeat' split) <;> (try simp) <;> (repeat' split) <;> (try simp)

@[simp]
theorem nextStoreKey_commitGetEntry (acc : CommitAcc) (t : TypeId)
    (a : AccountId) :
    (commitGetEntry acc t a).1.1.nextStoreKey = acc.1.nextStoreKey := by
  unfold commitGetEntry
  (repeat' split) <;> (try simp) <;> (repeat' split) <;> (try simp)

@[simp]
theorem skToType_commitCreatedStep (types : TypeId → TypeInfo)
    (acc : CommitAcc) (p : SK × Option SK) :
    (commitCreatedStep types acc p).1.skToType = acc.1.skToType := by
  unfold commitCreatedStep
  (repeat' split) <;> (try simp) <;> (repeat' split) <;> (try simp)

@[simp]
theorem nextStoreKey_commitCreatedStep (types : TypeId → TypeInfo)
    (acc : CommitAcc) (p : SK × Option SK) :
    (commitCreatedStep types acc p).1.nextStoreKey = acc.1.nextStoreKey := by
  unfold commitCreatedStep
  (repeat' split) <;> (try simp) <;> (repeat' split) <;> (try simp)

@[simp]
theorem skToType_commitChangedStep (types : TypeId → TypeInfo)
    (acc : CommitAcc) (p : SK × Changed) :
    (commitChangedStep types acc p).1.skToType = acc.1.skToType := by
  unfold commitChangedStep
  (repeat' split) <;> (try simp) <;> (repeat' split) <;> (try simp)

@[simp]
theorem nextStoreKey_commitChangedStep (types : TypeId → TypeInfo)
    (acc : CommitAcc) (p : SK × Changed) :
    (commitChangedStep types acc p).1.nextStoreKey = acc.1.nextStoreKey := by
  unfold commitChangedStep
  (repeat' split) <;> (try simp) <;> (repeat' split) <;> (try simp)

@[simp]
theorem skToType_commitDestroyedStep (created : List (SK × Option SK))
    (acc : CommitAcc) (p : SK × Option SK) :
    (commitDestroyedStep created acc p).1.skToType = acc.1.skToType := by
  unfold commitDestroyedStep
  (repeat' split) <;> (try simp) <;> (repeat' split) <;> (try simp)

@[simp]
theorem nextStoreKey_commitDestroyedStep (created : List (SK × Option SK))
    (acc : CommitAcc) (p : SK × Option SK) :
    (commitDestroyedStep created acc p).1.nextStoreKey = acc.1.nextStoreKey := by
  unfold commitDestroyedStep
  (repeat' split) <;> (try simp) <;> (repeat' split) <;> (try simp)

@[simp]
theorem skToType_commitChanges (types : TypeId → TypeInfo) (s : StoreState) :
    (commitChanges types s).skToType = s.skToType := by
  unfold commitChanges
  split
  · rfl
  · have h1 : ∀ (l : List (SK × Option SK)) (acc : CommitAcc),
        ((l.foldl (commitCreatedStep types) acc).1).skToType =
          acc.1.skToType :=
      fun l acc => skToType_foldl Prod.fst _ (fun a x => by simp) l acc
    have h2 : ∀ (l : List (SK × Changed)) (acc : CommitAcc),
        ((l.foldl (commitChangedStep types) acc).1).skToType =
          acc.1.skToType :=
      fun l acc => skToType_foldl Prod.fst _ (fun a x => by simp) l acc
    have h3 : ∀ (cs : List (SK × Option SK)) (l : List (SK × Option SK))
        (acc : CommitAcc),
        ((l.foldl (commitDestroyedStep cs) acc).1).skToType =
          acc.1.skToType :=
      fun cs l acc => skToType_foldl Prod.fst _ (fun a x => by simp) l acc
    dsimp only
    split <;> simp [h1, h2, h3]

@[simp]
theorem nextStoreKey_commitChanges (types : TypeId → TypeInfo)
    (s : StoreState) :
    (commitChanges types s).nextStoreKey = s.nextStoreKey := by
  unfold commitChanges
  split
  · rfl
  · have h1 : ∀ (l : List (SK × Option SK)) (acc : CommitAcc),
        ((l.foldl (commitCreatedStep types) acc).1).nextStoreKey =
          acc.1.nextStoreKey :=
      fun l acc => nextStoreKey_foldl Prod.fst _ (fun a x => by simp) l acc
    have h2 : ∀ (l : List (SK × Changed)) (acc : CommitAcc),
        ((l.foldl (commitChangedStep types) acc).1).nextStoreKey =
          acc.1.nextStoreKey :=
      fun l acc => nextStoreKey_foldl Prod.fst _ (fun a x => by simp) l acc
    have h3 : ∀ (cs : List (SK × Option SK)) (l : List (SK × Option SK))
        (acc : CommitAcc),
        ((l.foldl (commitDestroyedStep cs) acc).1).nextStoreKey =
          acc.1.nextStoreKey :=
      fun cs l acc => nextStoreKey_foldl Prod.fst _ (fun a x => by simp) l acc
    dsimp only
    split <;> simp [h1, h2, h3]

@[simp]
theorem skToType_changeRecordStoreKey (s : StoreState) (o n : SK) :
    (changeRecordStoreKey s o n).skToType = s.skToType := by
  unfold changeRecordStoreKey
  split <;> rfl

@[simp]
theorem nextStoreKey_changeRecordStoreKey (s : StoreState) (o n : SK) :
    (changeRecordStoreKey s o n).nextStoreKey = s.nextStoreKey := by
  unfold changeRecordStoreKey
  split <;> rfl

@[simp]
theorem skToType_addAccount (s : StoreState) (a : AccountId)
    (r : Option AccountId) : (addAccount s a r).skToType = s.skToType := by
  unfold addAccount
  (repeat' split) <;> (try simp) <;> (repeat' split) <;> (try simp)

@[simp]
theorem nextStoreKey_addAccount (s : StoreState) (a : AccountId)
    (r : Option AccountId) :
    (addAccount s a r).nextStoreKey = s.nextStoreKey := by
  unfold addAccount
  (repeat' split) <;> (try simp) <;> (repeat' split) <;> (try simp)

end Overture.St


namespace Overture.St

/-!
### Preservation of the store-key type assignment
-/

theorem pres_refl (s : StoreState) : Pres s s :=
  ⟨le_refl _, fun _ _ => rfl, fun h => h⟩

theorem pres_trans {s t u : StoreState} (h1 : Pres s t) (h2 : Pres t u) :
    Pres s u :=
  ⟨le_trans h1.1 h2.1,
   fun sk h => (h2.2.1 sk (lt_of_lt_of_le h h1.1)).trans (h1.2.1 sk h),
   fun hw => h2.2.2 (h1.2.2 hw)⟩

theorem pres_of_eq {s t : StoreState} (h1 : t.skToType = s.skToType)
    (h2 : t.nextStoreKey = s.nextStoreKey) : Pres s t := by
  refine ⟨h2.ge, fun sk _ => by rw [h1], fun hw p hp => ?_⟩
  rw [h2]
  exact hw p (h1 ▸ hp)

/-- The single minting operation preserves every earlier assignment: the
fresh key is `nextStoreKey`, above every assigned key. -/
theorem pres_getStoreKey (s : StoreState) (a : AccountId) (t : TypeId)
    (id : Option Id) : Pres s (getStoreKey s a t id).2 := by
  unfold getStoreKey
  dsimp only
  split
  · exact pres_refl s
  · split
    · exact pres_of_eq rfl rfl
    · refine ⟨Nat.le_succ _, fun sk h => ?_, fun hw p hp => ?_⟩
      · exact aGet_aSet_ne _ _ _ _ (Nat.ne_of_lt h)
      · rcases mem_aSet _ _ _ _ hp with h | h
        · exact lt_trans (hw p h) (Nat.lt_succ_self _)
        · rw [h]
          exact Nat.lt_succ_self _

/-- Fold preservation for `Pres`. -/
theorem pres_foldl {σ α : Type} (π : σ → StoreState) (f : σ → α → σ)
    (h : ∀ a x, Pres (π a) (π (f a x))) (l : List α) (a : σ) :
    Pres (π a) (π (l.foldl f a)) := by
  induction l generalizing a with
  | nil => exact pres_refl _
  | cons x xs ih => exact pres_trans (h a x) (ih (f a x))

theorem pres_sddrStep (a : AccountId) (t : TypeId) (s : StoreState)
    (id? : Option Id) : Pres s (sddrStep a t s id?) := by
  unfold sddrStep
  dsimp only
  split
  · rename_i a1 b1 hq
    split
    · exact pres_trans (pres_getStoreKey s a t (some b1))
        (pres_of_eq (by simp) (by simp))
    · exact pres_getStoreKey s a t (some b1)
  · exact pres_getStoreKey s a t _

theorem pres_sourceDidDestroyRecords (s : StoreState) (a : AccountId)
    (t : TypeId) (ids : List (Option Id)) :
    Pres s (sourceDidDestroyRecords s a t ids) :=
  pres_foldl id (sddrStep a t) (fun a' x => pres_sddrStep a t a' x)
    ids.reverse s

theorem pres_sdfrStep (a : AccountId) (t : TypeId)
    (st : StoreState × List SK × List (Id × Data)) (d : Data) :
    Pres st.1 (sdfrStep a t st d).1 := by
  have hgs := pres_getStoreKey st.1 a t
    (match aGet d "id" with | some (Val.str i) => some i | _ => none)
  unfold sdfrStep
  dsimp only
  split
  · exact hgs
  · split
    · exact pres_trans hgs (pres_of_eq (by simp) (by simp))
    · exact pres_trans hgs (pres_of_eq (by (repeat' split) <;> (try simp) <;> (repeat' split) <;> (try simp)) (by (repeat' split) <;> (try simp) <;> (repeat' split) <;> (try simp)))

theorem pres_sdfrMissing (a : AccountId) (t : TypeId) (seen : List SK)
    (s : StoreState) : Pres s (sdfrMissing a t seen s) := by
  unfold sdfrMissing
  dsimp only
  split
  · exact pres_sourceDidDestroyRecords s a t _
  · exact pres_refl s

theorem skToType_sdfrState (a : AccountId) (t : TypeId)
    (state : Option String) (isAll : Bool) (s : StoreState) :
    (sdfrState a t state isAll s).skToType = s.skToType := by
  unfold sdfrState
  (repeat' split) <;> (try simp) <;> (repeat' split) <;> (try simp)

theorem nextStoreKey_sdfrState (a : AccountId) (t : TypeId)
    (state : Option String) (isAll : Bool) (s : StoreState) :
    (sdfrState a t state isAll s).nextStoreKey = s.nextStoreKey := by
  unfold sdfrState
  (repeat' split) <;> (try simp) <;> (repeat' split) <;> (try simp)

theorem pres_sourceDidFetchRecords (s : StoreState) (a : AccountId)
    (t : TypeId) (records : List Data) (state : Option String)
    (isAll : Bool) :
    Pres s (sourceDidFetchRecords s a t records state isAll) := by
  have h1 : Pres s (records.reverse.foldl (sdfrStep a t) (s, [], [])).1 :=
    pres_foldl Prod.fst (sdfrStep a t) (fun a' x => pres_sdfrStep a t a' x)
      records.reverse (s, [], [])
  have h2 : Pres (records.reverse.foldl (sdfrStep a t) (s, [], [])).1
      (if isAll then
        sdfrMissing a t (records.reverse.foldl (sdfrStep a t) (s, [], [])).2.1
          (records.reverse.foldl (sdfrStep a t) (s, [], [])).1
      else (records.reverse.foldl (sdfrStep a t) (s, [], [])).1) := by
    split
    · exact pres_sdfrMissing a t _ _
    · exact pres_refl _
  unfold sourceDidFetchRecords
  dsimp only
  exact pres_trans h1 (pres_trans h2
    (pres_of_eq (by simp [skToType_sdfrState])
      (by simp [nextStoreKey_sdfrState])))

theorem pres_moveRecord (types : TypeId → TypeInfo) (s : StoreState)
    (sk : SK) (toAccountId : AccountId) (c : Option SK) :
    Pres s (moveRecord types s sk toAccountId c).2 := by
  unfold moveRecord
  dsimp only
  split
  · exact pres_of_eq (by simp) (by simp)
  · exact pres_trans
      (pres_getStoreKey s toAccountId ((aGet s.skToType sk).getD "") none)
      (pres_of_eq (by simp) (by simp))

theorem pres_applyOp (types : TypeId → TypeInfo) (op : Op) (s : StoreState) :
    Pres s (applyOp types op s) := by
  cases op with
  | getStoreKey a t id => exact pres_getStoreKey s a t id
  | sourceDidDestroyRecords a t ids =>
    exact pres_sourceDidDestroyRecords s a t ids
  | sourceDidFetchRecords a t rs st all =>
    exact pres_sourceDidFetchRecords s a t rs st all
  | moveRecord sk a c => exact pres_moveRecord types s sk a c
  | _ => exact pres_of_eq (by simp [applyOp]) (by simp [applyOp])

theorem pres_applyOps (types : TypeId → TypeInfo) (ops : List Op)
    (s : StoreState) : Pres s (applyOps types ops s) :=
  pres_foldl id (fun s' op => applyOp types op s') (fun a x => pres_applyOp types x a)
    ops s

/-- A defined read is a membership. -/
theorem mem_of_aGet {κ α : Type} [DecidableEq κ] (m : List (κ × α))
    (k : κ) (v : α) (h : aGet m k = some v) : (k, v) ∈ m := by
  unfold aGet at h
  cases hf : m.find? (fun p => p.1 = k) with
  | none => rw [hf] at h; cases h
  | some p =>
    rw [hf] at h
    injection h with h
    have hm := List.mem_of_find?_eq_some hf
    have hk := List.find?_some hf
    simp only [decide_eq_true_eq] at hk
    have : p = (k, v) := Prod.ext hk (h ▸ rfl)
    exact this ▸ hm

end Overture.St


namespace Overture.St

/-- C2: partial-record delivery on a DIRTY record, with and without
conflict rebasing — the S2 scenario.  With `rebaseConflicts`, the client
value of the changed key `a` survives, the committed baseline becomes the
merged server state, `changed` still marks `a`, and the record stays
READY|DIRTY; without it, the server data wins, DIRTY is cleared, and the
changed/committed entries are removed. -/
theorem store_rebase_partialRecords :
    (aGet (sourceDidFetchPartialRecords (s2Store true) "acc1" "T"
        [("r1", s2Patch)]).skToData 1 =
      some [("a", .num 2), ("b", .num 9)] ∧
     aGet (sourceDidFetchPartialRecords (s2Store true) "acc1" "T"
        [("r1", s2Patch)]).skToCommitted 1 =
      some [("a", .num 9), ("b", .num 9)] ∧
     aGet (sourceDidFetchPartialRecords (s2Store true) "acc1" "T"
        [("r1", s2Patch)]).skToChanged 1 = some [("a", true)] ∧
     getStatus (sourceDidFetchPartialRecords (s2Store true) "acc1" "T"
        [("r1", s2Patch)]) 1 = (READY ||| DIRTY)) ∧
    (aGet (sourceDidFetchPartialRecords (s2Store false) "acc1" "T"
        [("r1", s2Patch)]).skToData 1 =
      some [("a", .num 9), ("b", .num 9)] ∧
     aGet (sourceDidFetchPartialRecords (s2Store false) "acc1" "T"
        [("r1", s2Patch)]).skToChanged 1 = none ∧
     aGet (sourceDidFetchPartialRecords (s2Store false) "acc1" "T"
        [("r1", s2Patch)]).skToCommitted 1 = none ∧
     getStatus (sourceDidFetchPartialRecords (s2Store false) "acc1" "T"
        [("r1", s2Patch)]) 1 = READY) := by
  decide

/-- C7: `unloadRecord` succeeds exactly when the status has none of
COMMITTING, NEW or DIRTY and the materialised record (if any) has no
observers; success drops the record, data, status, rollback and
last-access entries; failure leaves the store untouched; and in every
case the id ↔ store-key mappings (`typeToSKToId`, `skToType`,
`skToAccountId`, the accounts' `typeToIdToSK`) are retained. -/
theorem store_unloadRecord_safety (s : StoreState) (sk : SK) :
    ((unloadRecord s sk).1 = true ↔
      (getStatus s sk &&& (COMMITTING ||| NEW ||| DIRTY) = 0 ∧
       (aGet s.skToRecord sk).getD false = false)) ∧
    ((unloadRecord s sk).1 = true →
      (aGet (unloadRecord s sk).2.skToRecord sk = none ∧
       aGet (unloadRecord s sk).2.skToData sk = none ∧
       aGet (unloadRecord s sk).2.skToStatus sk = none ∧
       aGet (unloadRecord s sk).2.skToRollback sk = none ∧
       aGet (unloadRecord s sk).2.skToLastAccess sk = none)) ∧
    ((unloadRecord s sk).1 = false → (unloadRecord s sk).2 = s) ∧
    ((unloadRecord s sk).2.typeToSKToId = s.typeToSKToId ∧
     (unloadRecord s sk).2.skToType = s.skToType ∧
     (unloadRecord s sk).2.skToAccountId = s.skToAccountId ∧
     (unloadRecord s sk).2.accounts = s.accounts) := by
  unfold unloadRecord mayUnloadRecord
  by_cases h1 : getStatus s sk &&& (COMMITTING ||| NEW ||| DIRTY) = 0 <;>
    by_cases h2 : (aGet s.skToRecord sk).getD false = false <;>
      simp [h1, h2, aGet_aDel_self]

/-- C7 witness: on `fetchStore`, store key 1 (READY, unobserved) unloads
and its tables are dropped. -/
theorem store_unloadRecord_safety_witness :
    (unloadRecord fetchStore 1).1 = true ∧
    aGet (unloadRecord fetchStore 1).2.skToData 1 = none ∧
    (unloadRecord fetchStore 1).2.skToType = fetchStore.skToType := by
  have h := store_unloadRecord_safety fetchStore 1
  refine ⟨h.1.mpr ⟨by decide, by decide⟩, (h.2.1 (h.1.mpr ⟨by decide, by decide⟩)).2.1,
    h.2.2.2.2.1⟩

/-- C9: the two self-check paths.  `createRecord` on a store key whose
status shows an existing record only appends the diagnostic to the error
log; `updateData` with `changeIsDirty` on a record without loaded data or
without READY reports likewise, returns `false`, and leaves every table
unchanged (the whole state, module the error log). -/
theorem store_mutation_errors_noop (s : StoreState) (sk : SK)
    (data? : Option Data) (copy : Option SK) (data : Data) :
    (getStatus s sk ≠ EMPTY ∧ getStatus s sk ≠ DESTROYED →
      createRecord s sk data? copy =
        { s with errors := s.errors ++ [CANNOT_CREATE_EXISTING_RECORD_ERROR] }) ∧
    (aGet s.skToData sk = none ∨ getStatus s sk &&& READY = 0 →
      updateData s sk data true =
        (false,
         { s with errors := s.errors ++ [CANNOT_WRITE_TO_UNREADY_RECORD_ERROR] })) := by
  constructor
  · intro h
    unfold createRecord
    rw [if_pos h]
    rfl
  · intro h
    unfold updateData
    cases hd : aGet s.skToData sk with
    | none => rfl
    | some current =>
      rcases h with h | h
      · rw [hd] at h
        cases h
      · dsimp only
        rw [if_pos ⟨rfl, h⟩]
        rfl

/-- C9 witness: on `fetchStore`, creating over the READY store key 1 and
dirty-updating the LOADING, data-less store key 5 both report and leave
the state otherwise unchanged. -/
theorem store_mutation_errors_noop_witness :
    createRecord fetchStore 1 (some [("a", Val.num 1)]) none =
      { fetchStore with
        errors := fetchStore.errors ++ [CANNOT_CREATE_EXISTING_RECORD_ERROR] } ∧
    updateData fetchStore 5 [("a", Val.num 1)] true =
      (false,
       { fetchStore with
         errors := fetchStore.errors ++ [CANNOT_WRITE_TO_UNREADY_RECORD_ERROR] }) :=
  ⟨(store_mutation_errors_noop fetchStore 1 (some [("a", Val.num 1)]) none
      [("a", Val.num 1)]).1 ⟨by decide, by decide⟩,
   (store_mutation_errors_noop fetchStore 5 none none
      [("a", Val.num 1)]).2 (Or.inl (by decide))⟩

/-- C6: in the `fetchStore` `isAll` scenario with only `r1` in the
response, the absent READY record `r2` of the fetched account is flipped
to DESTROYED and unloaded (its status and data entries are dropped, the
id mapping kept, so its status reads EMPTY), while the NEW record `r3`,
the other-account record `r4` and the non-READY record `r5` keep their
status and data, and `r1` stays READY. -/
theorem store_fetchAll_missing_destroyed :
    (let u := sourceDidFetchRecords fetchStore "acc1" "T" fetchResponse
        none true
     getStatus u 1 = READY ∧
     aGet u.skToStatus 2 = none ∧ aGet u.skToData 2 = none ∧
     aGet ((aGet u.typeToSKToId "T").getD []) 2 = some (some "r2") ∧
     getStatus u 3 = (READY ||| NEW) ∧
     aGet u.skToData 3 = some [("accountId", Val.str "acc1")] ∧
     getStatus u 4 = READY ∧
     getStatus u 5 = LOADING) := by
  decide

/-- C6 counterexample: if the missing record `r2` has an observed
materialised instance, the claimed "flipped to DESTROYED **and**
unloaded" conjunction fails — the status flips but `mayUnloadRecord`
refuses, so the data, status and record entries survive. -/
theorem store_fetchAll_missing_observed_counterexample :
    (let u := sourceDidFetchRecords
        { fetchStore with skToRecord := [(2, true)] } "acc1" "T"
        fetchResponse none true
     getStatus u 2 = DESTROYED ∧
     aGet u.skToData 2 = some [("accountId", Val.str "acc1")] ∧
     aGet u.skToRecord 2 = some true) := by
  decide

/-- C3 counterexample: committing a freshly created record flips it to
READY|NEW|COMMITTING without ever writing a rollback entry, so
"COMMITTING implies rollback is populated" fails after `commitChanges`. -/
theorem store_committing_rollback_counterexample :
    getStatus (commitChanges types0 newRecStore) 1 &&& COMMITTING ≠ 0 ∧
    aGet (commitChanges types0 newRecStore).skToRollback 1 = none := by
  decide

/-- C4 counterexample: patching a clean READY record with a key absent
from its data (`{b:2}` onto `{a:1}`) and then discarding changes does not
restore the pre-patch state: the new key survives in the data, the
changed set still marks it, and the record remains DIRTY. -/
theorem store_update_discard_counterexample :
    (let u := discardChanges types0
        (updateData cleanStore 1 [("b", Val.num 2)] true).2
     aGet u.skToData 1 = some [("a", Val.num 1), ("b", Val.num 2)] ∧
     aGet u.skToChanged 1 = some [("b", true)] ∧
     getStatus u 1 = (READY ||| DIRTY)) := by
  decide

/-- C8 counterexample: `updateData` on a new (READY|NEW|DIRTY) record
whose patch carries an `accountId` rewrites the store key's account
assignment in place — the (type, accountId) pair of an existing store key
is not immutable. -/
theorem store_accountId_mutated_counterexample :
    aGet newRecStore.skToAccountId 1 = some "acc1" ∧
    aGet (updateData newRecStore 1 [("accountId", Val.str "acc2")]
        true).2.skToAccountId 1 = some "acc2" := by
  decide

end Overture.St


namespace Overture.St

/-- C8: under the freshness invariant `WFT`, the type assigned to a store
key at minting is never changed by any modelled store operation (nor any
sequence of them), and `moveRecord` on an assigned store key with no
pending copy mints the fresh key `nextStoreKey`, which is distinct from
the moved key — the accountId half of the claim is refuted separately. -/
theorem store_type_assignment_immutable (types : TypeId → TypeInfo)
    (ops : List Op) (s : StoreState) (sk : SK) (t : TypeId)
    (a : AccountId) (hwf : WFT s) (ht : aGet s.skToType sk = some t) :
    aGet (applyOps types ops s).skToType sk = some t ∧
    ((aGet s.created sk).getD none = none → (aGet s.accounts a).isSome →
      (moveRecord types s sk a none).1 = s.nextStoreKey ∧
      (moveRecord types s sk a none).1 ≠ sk) := by
  have hlt : sk < s.nextStoreKey := hwf (sk, t) (mem_of_aGet _ _ _ ht)
  constructor
  · rw [(pres_applyOps types ops s).2.1 sk hlt, ht]
  · intro hc ha
    obtain ⟨acct, hacct⟩ := Option.isSome_iff_exists.mp ha
    have hmint : (moveRecord types s sk a none).1 = s.nextStoreKey := by
      unfold moveRecord getStoreKey
      dsimp only
      rw [hc]
      dsimp only
      rw [hacct]
      rfl
    exact ⟨hmint, fun he => (Nat.ne_of_lt hlt) (he ▸ hmint)⟩

/-- C8 witness: on the one-record store, the type survives a commit and
an unload attempt, and a move mints the fresh key 5 ≠ 1. -/
theorem store_type_assignment_immutable_witness :
    aGet (applyOps types0 [Op.commitChanges, Op.unloadRecord 1]
      newRecStore).skToType 1 = some "T" ∧
    (moveRecord types0 newRecStore 1 "acc1" none).1 = 5 := by
  have h := store_type_assignment_immutable types0
    [Op.commitChanges, Op.unloadRecord 1] newRecStore 1 "T" "acc1"
    (by unfold WFT; decide) (by decide)
  exact ⟨h.1, ((h.2 (by decide) (by decide)).1).trans rfl⟩

end Overture.St


namespace Overture.St

/-!
### C3: rollback population on commit
-/

/-- Generic fold-invariant preservation. -/
theorem foldl_inv {σ α : Type} (P : σ → Prop) (f : σ → α → σ)
    (l : List α) (a : σ) (h : ∀ b x, x ∈ l → P b → P (f b x)) (ha : P a) :
    P (l.foldl f a) := by
  induction l generalizing a with
  | nil => exact ha
  | cons x xs ih =>
    exact ih (f a x) (fun b y hy => h b y (List.mem_cons_of_mem x hy))
      (h a x (List.mem_cons_self x xs) ha)

@[simp]
theorem skToStatus_modifyAccount (s : StoreState) (a : AccountId)
    (f : Account → Account) :
    (modifyAccount s a f).skToStatus = s.skToStatus := by
  unfold modifyAccount
  split <;> rfl

@[simp]
theorem skToCommitted_modifyAccount (s : StoreState) (a : AccountId)
    (f : Account → Account) :
    (modifyAccount s a f).skToCommitted = s.skToCommitted := by
  unfold modifyAccount
  split <;> rfl

@[simp]
theorem skToRollback_modifyAccount (s : StoreState) (a : AccountId)
    (f : Account → Account) :
    (modifyAccount s a f).skToRollback = s.skToRollback := by
  unfold modifyAccount
  split <;> rfl

@[simp]
theorem skToStatus_orAccountStatus (s : StoreState) (a : AccountId)
    (t : TypeId) (b : Nat) :
    (orAccountStatus s a t b).skToStatus = s.skToStatus := by
  unfold orAccountStatus
  simp

@[simp]
theorem skToCommitted_orAccountStatus (s : StoreState) (a : AccountId)
    (t : TypeId) (b : Nat) :
    (orAccountStatus s a t b).skToCommitted = s.skToCommitted := by
  unfold orAccountStatus
  simp

@[simp]
theorem skToRollback_orAccountStatus (s : StoreState) (a : AccountId)
    (t : TypeId) (b : Nat) :
    (orAccountStatus s a t b).skToRollback = s.skToRollback := by
  unfold orAccountStatus
  simp

@[simp]
theorem skToStatus_commitGetEntry (acc : CommitAcc) (t : TypeId)
    (a : AccountId) :
    (commitGetEntry acc t a).1.1.skToStatus = acc.1.skToStatus := by
  unfold commitGetEntry
  (repeat' split) <;> (try simp) <;> (repeat' split) <;> (try simp)

@[simp]
theorem skToCommitted_commitGetEntry (acc : CommitAcc) (t : TypeId)
    (a : AccountId) :
    (commitGetEntry acc t a).1.1.skToCommitted = acc.1.skToCommitted := by
  unfold commitGetEntry
  (repeat' split) <;> (try simp) <;> (repeat' split) <;> (try simp)

@[simp]
theorem skToRollback_commitGetEntry (acc : CommitAcc) (t : TypeId)
    (a : AccountId) :
    (commitGetEntry acc t a).1.1.skToRollback = acc.1.skToRollback := by
  unfold commitGetEntry
  (repeat' split) <;> (try simp) <;> (repeat' split) <;> (try simp)

@[simp]
theorem skToCommitted_setStatus (s : StoreState) (k : SK) (v : Nat) :
    (setStatus s k v).skToCommitted = s.skToCommitted := by
  unfold setStatus
  split <;> rfl

@[simp]
theorem skToRollback_setStatus (s : StoreState) (k : SK) (v : Nat) :
    (setStatus s k v).skToRollback = s.skToRollback := by
  unfold setStatus
  split <;> rfl

@[simp]
theorem skToType_commitGetEntry2 (acc : CommitAcc) (t : TypeId)
    (a : AccountId) :
    (commitGetEntry acc t a).1.1.skToType = acc.1.skToType :=
  skToType_commitGetEntry acc t a

/-- Status reads through a write at a different key are unchanged. -/
theorem getStatus_setStatus_ne (s : StoreState) (k : SK) (v : Nat) (j : SK)
    (h : j ≠ k) : getStatus (setStatus s k v) j = getStatus s j := by
  unfold setStatus getStatus
  split
  · rw [aGet_aSet_ne _ _ _ _ h]
  · rfl

/-- Status reads back the written value. -/
theorem getStatus_setStatus_self (s : StoreState) (k : SK) (v : Nat) :
    getStatus (setStatus s k v) k = v := by
  unfold setStatus
  split
  · unfold getStatus
    simp [aGet_aSet_self]
  · next h => exact not_not.mp h

/-- Setting a bit makes the masked read non-zero. -/
theorem or_and_self_ne_zero (x b : Nat) (i : Nat) (hb : b = 2 ^ i) :
    (x ||| b) &&& b ≠ 0 := by
  intro hx
  have h1 : ((x ||| b) &&& b).testBit i = false := by
    rw [hx]
    exact Nat.zero_testBit i
  rw [Nat.testBit_and, Nat.testBit_or, hb, Nat.testBit_two_pow_self] at h1
  simp at h1

/-- The created-records loop does not touch the committed snapshots. -/
theorem skToCommitted_commitCreatedStep (types : TypeId → TypeInfo)
    (acc : CommitAcc) (p : SK × Option SK) :
    (commitCreatedStep types acc p).1.skToCommitted = acc.1.skToCommitted := by
  unfold commitCreatedStep
  (repeat' split) <;> (try simp) <;> (repeat' split) <;> (try simp)

/-- The changed-records loop at another key does not touch this key's
committed snapshot. -/
theorem committed_commitChangedStep_ne (types : TypeId → TypeInfo)
    (acc : CommitAcc) (p : SK × Changed) (sk : SK) (h : p.1 ≠ sk) :
    aGet (commitChangedStep types acc p).1.skToCommitted sk =
      aGet acc.1.skToCommitted sk := by
  have hne : sk ≠ p.1 := fun hh => h hh.symm
  unfold commitChangedStep
  dsimp only
  split
  · simp [aGet_aDel_ne _ _ _ hne]
  · split <;> simp [aGet_aDel_ne _ _ _ hne]

/-- The changed-records loop never drops a rollback entry. -/
theorem rollback_commitChangedStep_mono (types : TypeId → TypeInfo)
    (acc : CommitAcc) (p : SK × Changed) (sk : SK)
    (h : (aGet acc.1.skToRollback sk).isSome) :
    (aGet (commitChangedStep types acc p).1.skToRollback sk).isSome := by
  unfold commitChangedStep
  dsimp only
  split
  · simpa using h
  · split
    · by_cases hk : sk = p.1
      · subst hk
        simp [aGet_aSet_self]
      · simpa [aGet_aSet_ne _ _ _ _ hk] using h
    · simpa using h

/-- The changed-records loop at another key does not change this key's
status. -/
theorem status_commitChangedStep_ne (types : TypeId → TypeInfo)
    (acc : CommitAcc) (p : SK × Changed) (sk : SK) (h : p.1 ≠ sk) :
    getStatus (commitChangedStep types acc p).1 sk =
      getStatus acc.1 sk := by
  have hne : sk ≠ p.1 := fun hh => h hh.symm
  unfold commitChangedStep
  dsimp only
  split
  · rw [getStatus_setStatus_ne _ _ _ _ hne]
    simp [getStatus]
  · split <;> (rw [getStatus_setStatus_ne _ _ _ _ hne] ; simp [getStatus])

/-- The changed-records loop's type table is untouched (restated for
reads). -/
theorem type_commitChangedStep (types : TypeId → TypeInfo)
    (acc : CommitAcc) (p : SK × Changed) (sk : SK) :
    aGet (commitChangedStep types acc p).1.skToType sk =
      aGet acc.1.skToType sk := by
  rw [skToType_commitChangedStep]

/-- Processing a changed entry with a surviving committed snapshot and a
non-empty settable change set stores the snapshot as the rollback and
flips the record to COMMITTING. -/
theorem commitChangedStep_process (types : TypeId → TypeInfo)
    (acc : CommitAcc) (sk : SK) (ch : Changed) (prev : Data)
    (hcom : aGet acc.1.skToCommitted sk = some prev)
    (hne : filterChanged ch
      (types ((aGet acc.1.skToType sk).getD "")).clientSettable ≠ []) :
    aGet (commitChangedStep types acc (sk, ch)).1.skToRollback sk =
      some prev ∧
    getStatus (commitChangedStep types acc (sk, ch)).1 sk =
      (jsClear (getStatus acc.1 sk) DIRTY ||| COMMITTING) := by
  unfold commitChangedStep
  dsimp only
  rw [if_neg (by simpa [List.isEmpty_iff] using hne)]
  rw [hcom]
  dsimp only
  constructor
  · simp [aGet_aSet_self]
  · rw [getStatus_setStatus_self]

/-- The destroyed-records loop never touches the rollback table and
always leaves COMMITTING set on the keys it re-statuses. -/
theorem skToRollback_commitDestroyedStep (cs : List (SK × Option SK))
    (acc : CommitAcc) (p : SK × Option SK) :
    (commitDestroyedStep cs acc p).1.skToRollback = acc.1.skToRollback := by
  unfold commitDestroyedStep
  (repeat' split) <;> (try simp) <;> (repeat' split) <;> (try simp)

/-- See `skToRollback_commitDestroyedStep`. -/
theorem status_commitDestroyedStep (cs : List (SK × Option SK))
    (acc : CommitAcc) (p : SK × Option SK) (sk : SK)
    (h : getStatus acc.1 sk &&& COMMITTING ≠ 0) :
    getStatus (commitDestroyedStep cs acc p).1 sk &&& COMMITTING ≠ 0 := by
  unfold commitDestroyedStep
  dsimp only
  by_cases hk : sk = p.1
  · subst hk
    rw [getStatus_setStatus_self]
    exact or_and_self_ne_zero _ _ 5 (by norm_num [COMMITTING])
  · rw [getStatus_setStatus_ne _ _ _ _ hk]
    split <;> simpa [getStatus] using h

/-- Find-first decomposition of a defined read. -/
theorem aGet_split {κ α : Type} [DecidableEq κ] (m : List (κ × α)) (k : κ)
    (v : α) (h : aGet m k = some v) :
    ∃ l1 l2, m = l1 ++ (k, v) :: l2 ∧ ∀ p ∈ l1, p.1 ≠ k := by
  induction m with
  | nil => cases h
  | cons p tl ih =>
    rw [aGet_cons] at h
    by_cases hp : p.1 = k
    · rw [if_pos hp] at h
      injection h with h
      have hpv : p = (k, v) := by
        rw [Prod.ext_iff]
        exact ⟨hp, h⟩
      exact ⟨[], tl, by rw [hpv]; rfl, by simp⟩
    · rw [if_neg hp] at h
      obtain ⟨l1, l2, he, hl⟩ := ih h
      exact ⟨p :: l1, l2, by rw [he, List.cons_append], by
        intro q hq
        rcases List.mem_cons.mp hq with hq | hq
        · exact hq ▸ hp
        · exact hl q hq⟩

/-- C3 (amended): when an uncommitted store commits a record carried in
`_skToChanged` whose settable change set is non-empty and whose committed
snapshot exists (the situation every DIRTY record update produces),
`commitChanges` stores the snapshot in the rollback table and the
record's status carries COMMITTING — the original claim fails for created
records, refuted separately. -/
theorem store_committing_implies_rollback (types : TypeId → TypeInfo)
    (s : StoreState) (sk : SK) (ch : Changed) (prev : Data)
    (hnc : s.isCommitting = false)
    (hnd : (s.skToChanged.map Prod.fst).Nodup)
    (hch : aGet s.skToChanged sk = some ch)
    (hne : filterChanged ch
      (types ((aGet s.skToType sk).getD "")).clientSettable ≠ [])
    (hprev : aGet s.skToCommitted sk = some prev) :
    (aGet (commitChanges types s).skToRollback sk).isSome ∧
    getStatus (commitChanges types s) sk &&& COMMITTING ≠ 0 := by
  obtain ⟨l1, l2, hsplit, hl1⟩ := aGet_split _ _ _ hch
  have hsk2 : ∀ p ∈ l2, p.1 ≠ sk := by
    have h2 := hnd
    rw [hsplit] at h2
    simp only [List.map_append, List.map_cons] at h2
    have h3 := h2.of_append_right
    rw [List.nodup_cons] at h3
    intro p hp he
    exact h3.1 (he ▸ List.mem_map_of_mem Prod.fst hp)
  unfold commitChanges
  rw [if_neg (by simp [hnc])]
  dsimp only
  set acc0 : CommitAcc := ({ s with isCommitting := true }, [], false)
    with hacc0
  rw [hsplit, List.foldl_append, List.foldl_cons]
  set accC : CommitAcc := s.created.foldl (commitCreatedStep types) acc0
    with haccC
  set acc1 : CommitAcc := l1.foldl (commitChangedStep types) accC with hacc1
  set acc2 : CommitAcc := commitChangedStep types acc1 (sk, ch) with hacc2
  set acc3 : CommitAcc := l2.foldl (commitChangedStep types) acc2 with hacc3
  set acc4 : CommitAcc := s.destroyed.foldl
    (commitDestroyedStep s.created) acc3 with hacc4
  have hQ1 : aGet acc1.1.skToCommitted sk = some prev ∧
      aGet acc1.1.skToType sk = aGet s.skToType sk := by
    rw [hacc1, haccC, hacc0]
    refine foldl_inv (fun acc : CommitAcc =>
      aGet acc.1.skToCommitted sk = some prev ∧
      aGet acc.1.skToType sk = aGet s.skToType sk) _ _ _ ?_
      (foldl_inv (fun acc : CommitAcc =>
        aGet acc.1.skToCommitted sk = some prev ∧
        aGet acc.1.skToType sk = aGet s.skToType sk) _ _ _ ?_ ⟨hprev, rfl⟩)
    · intro b x hx hb
      exact ⟨(committed_commitChangedStep_ne types b x sk
          (hl1 x hx)).trans hb.1,
        (type_commitChangedStep types b x sk).trans hb.2⟩
    · intro b x _ hb
      refine ⟨?_, ?_⟩
      · rw [skToCommitted_commitCreatedStep]
        exact hb.1
      · rw [skToType_commitCreatedStep]
        exact hb.2
  have hproc := commitChangedStep_process types acc1 sk ch prev hQ1.1
    (by rw [hQ1.2]; exact hne)
  rw [← hacc2] at hproc
  have hP2 : (aGet acc4.1.skToRollback sk).isSome ∧
      getStatus acc4.1 sk &&& COMMITTING ≠ 0 := by
    rw [hacc4]
    refine foldl_inv (fun acc : CommitAcc =>
      (aGet acc.1.skToRollback sk).isSome ∧
      getStatus acc.1 sk &&& COMMITTING ≠ 0) _ _ _ ?_ ?_
    · intro b x _ hb
      refine ⟨?_, status_commitDestroyedStep s.created b x sk hb.2⟩
      rw [skToRollback_commitDestroyedStep]
      exact hb.1
    · rw [hacc3]
      refine foldl_inv (fun acc : CommitAcc =>
        (aGet acc.1.skToRollback sk).isSome ∧
        getStatus acc.1 sk &&& COMMITTING ≠ 0) _ _ _ ?_ ?_
      · intro b x hx hb
        exact ⟨rollback_commitChangedStep_mono types b x sk hb.1,
          (status_commitChangedStep_ne types b x sk (hsk2 x hx)) ▸ hb.2⟩
      · exact ⟨Option.isSome_iff_exists.mpr ⟨prev, hproc.1⟩,
          by rw [hproc.2]
             exact or_and_self_ne_zero _ _ 5 (by norm_num [COMMITTING])⟩
  constructor
  · split <;> simpa using hP2.1
  · split <;> simpa [getStatus] using hP2.2

end Overture.St


namespace Overture.St

/-!
### C4: update / discard round trip
-/

/-- `dataGet` after a write at the same key. -/
theorem dataGet_aSet_self (m : Data) (k : String) (v : Val) :
    dataGet (aSet m k v) k = v := by
  unfold dataGet
  rw [aGet_aSet_self]
  rfl

/-- `dataGet` after a write at another key. -/
theorem dataGet_aSet_ne (m : Data) (k j : String) (v : Val) (h : j ≠ k) :
    dataGet (aSet m k v) j = dataGet m j := by
  unfold dataGet
  rw [aGet_aSet_ne _ _ _ _ h]

/-- With duplicate-free keys, membership determines the read. -/
theorem aGet_of_mem_nodup {κ α : Type} [DecidableEq κ]
    (m : List (κ × α)) (k : κ) (v : α) (hnd : (m.map Prod.fst).Nodup)
    (h : (k, v) ∈ m) : aGet m k = some v := by
  induction m with
  | nil => cases h
  | cons p tl ih =>
    simp only [List.map_cons, List.nodup_cons] at hnd
    rw [aGet_cons]
    rcases List.mem_cons.mp h with h | h
    · rw [← h]
      simp
    · have hk : ¬ p.1 = k := by
        intro he
        exact hnd.1 (he ▸ List.mem_map_of_mem Prod.fst h)
      rw [if_neg hk]
      exact ih hnd.2 h

/-- Association lists over `Val` with the same duplicate-free key
sequence and the same JS property reads are equal. -/
theorem data_ext (c d : Data) (hk : c.map Prod.fst = d.map Prod.fst)
    (hnd : (d.map Prod.fst).Nodup) (hp : ∀ k, dataGet c k = dataGet d k) :
    c = d := by
  refine assoc_ext c d hk hnd (fun k => ?_)
  by_cases hm : k ∈ d.map Prod.fst
  · obtain ⟨x, hx⟩ := Option.isSome_iff_exists.mp
      (aGet_isSome_of_mem c k (hk ▸ hm))
    obtain ⟨y, hy⟩ := Option.isSome_iff_exists.mp (aGet_isSome_of_mem d k hm)
    have := hp k
    unfold dataGet at this
    rw [hx, hy] at this ⊢
    simpa using this
  · rw [aGet_eq_none_of_not_mem c k (hk ▸ hm),
      aGet_eq_none_of_not_mem d k hm]

/-- The invariant of `updateData`'s dirty loop against a fixed committed
snapshot `d`, when every patched key exists in `d`. -/
def UpdInv (d : Data) (st : Data × Changed × Bool) : Prop :=
  st.1.map Prod.fst = d.map Prod.fst ∧
  (∀ k b, aGet st.2.1 k = some b →
    b = decide (¬ dataGet st.1 k = dataGet d k)) ∧
  (∀ k, aGet st.2.1 k = none → aGet st.1 k = aGet d k) ∧
  (∀ k, (aGet st.2.1 k).isSome → k ∈ d.map Prod.fst) ∧
  (st.2.1.map Prod.fst).Nodup

/-- One dirty-loop turn preserves `UpdInv` when the key exists in `d`. -/
theorem updInv_step (d : Data) (st : Data × Changed × Bool)
    (p : String × Val) (hk : p.1 ∈ d.map Prod.fst) (h : UpdInv d st) :
    UpdInv d (updateDirtyStep d st p) := by
  obtain ⟨h1, h2, h3, h4, h5⟩ := h
  unfold updateDirtyStep
  dsimp only
  split
  · refine ⟨?_, ?_, ?_, ?_, ?_⟩
    · rw [keys_aSet_of_mem _ _ _ (h1 ▸ hk)]
      exact h1
    · intro k b hb
      by_cases hkk : k = p.1
      · subst hkk
        rw [aGet_aSet_self] at hb
        injection hb with hb
        rw [← hb, dataGet_aSet_self]
      · rw [aGet_aSet_ne _ _ _ _ hkk] at hb
        rw [dataGet_aSet_ne _ _ _ _ hkk]
        exact h2 k b hb
    · intro k hb
      by_cases hkk : k = p.1
      · subst hkk
        rw [aGet_aSet_self] at hb
        cases hb
      · rw [aGet_aSet_ne _ _ _ _ hkk] at hb
        rw [aGet_aSet_ne _ _ _ _ hkk]
        exact h3 k hb
    · intro k hb
      by_cases hkk : k = p.1
      · exact hkk ▸ hk
      · rw [aGet_aSet_ne _ _ _ _ hkk] at hb
        exact h4 k hb
    · exact nodup_keys_aSet _ _ _ h5
  · exact ⟨h1, h2, h3, h4, h5⟩

/-- The dirty loop of the update phase establishes `UpdInv`. -/
theorem updInv_fold (d patch : Data)
    (hkeys : ∀ p ∈ patch, p.1 ∈ d.map Prod.fst) :
    UpdInv d (patch.foldl (updateDirtyStep d) (d, [], false)) := by
  refine foldl_inv (UpdInv d) _ _ _ (fun b x hx hb => updInv_step d b x
    (hkeys x hx) hb) ?_
  refine ⟨rfl, ?_, ?_, ?_, ?_⟩ <;> simp [aGet]

/-- The discard-phase invariant: `suf` is the unprocessed suffix of the
replayed committed snapshot `d`. -/
def DisInv (d : Data) (suf : Data) (st : Data × Changed × Bool) : Prop :=
  st.1.map Prod.fst = d.map Prod.fst ∧
  st.2.2 = false ∧
  (∀ k, k ∉ suf.map Prod.fst → dataGet st.1 k = dataGet d k) ∧
  (∀ k b, aGet st.2.1 k = some b →
    b = decide (¬ dataGet st.1 k = dataGet d k)) ∧
  (st.2.1.map Prod.fst).Nodup

/-- Replaying the committed snapshot over the dirtied data restores it
key by key. -/
theorem disInv_fold (d : Data) (hnd : (d.map Prod.fst).Nodup) :
    ∀ (suf : Data) (st : Data × Changed × Bool),
    (∀ p ∈ suf, aGet d p.1 = some p.2) → DisInv d suf st →
    DisInv d [] (suf.foldl (updateDirtyStep d) st) := by
  intro suf
  induction suf with
  | nil => exact fun st _ h => h
  | cons p tl ih =>
    intro st hsub h
    obtain ⟨h1, h2, h3, h4, h5⟩ := h
    have hdp : dataGet d p.1 = p.2 := by
      unfold dataGet
      rw [hsub p (List.mem_cons_self p tl)]
      rfl
    rw [List.foldl_cons]
    refine ih (updateDirtyStep d st p)
      (fun q hq => hsub q (List.mem_cons_of_mem p hq)) ?_
    unfold updateDirtyStep
    dsimp only
    split
    · next hne =>
      refine ⟨?_, ?_, ?_, ?_, ?_⟩
      · rw [keys_aSet_of_mem]
        · exact h1
        · rw [h1]
          exact List.mem_map_of_mem Prod.fst
            (mem_of_aGet _ _ _ (hsub p (List.mem_cons_self p tl)))
      · simpa [hdp] using h2
      · intro k hk
        by_cases hkk : k = p.1
        · subst hkk
          rw [dataGet_aSet_self, hdp]
        · rw [dataGet_aSet_ne _ _ _ _ hkk]
          refine h3 k ?_
          simp only [List.map_cons, List.mem_cons]
          push_neg
          exact ⟨hkk, hk⟩
      · intro k b hb
        by_cases hkk : k = p.1
        · subst hkk
          rw [aGet_aSet_self] at hb
          injection hb with hb
          rw [← hb, dataGet_aSet_self, hdp]
        · rw [aGet_aSet_ne _ _ _ _ hkk] at hb
          rw [dataGet_aSet_ne _ _ _ _ hkk]
          exact h4 k b hb
      · exact nodup_keys_aSet _ _ _ h5
    · next hne =>
      have heq : dataGet st.1 p.1 = dataGet d p.1 := by
        have : p.2 = dataGet st.1 p.1 := not_not.mp (by simpa using hne)
        rw [← this, hdp]
      refine ⟨h1, h2, ?_, h4, h5⟩
      intro k hk
      by_cases hkk : k = p.1
      · exact hkk ▸ heq
      · refine h3 k ?_
        simp only [List.map_cons, List.mem_cons]
        push_neg
        exact ⟨hkk, hk⟩

/-- The end state of the discard replay: data restored exactly, every
changed marker false. -/
theorem disInv_conclusion (d : Data) (hnd : (d.map Prod.fst).Nodup)
    (st : Data × Changed × Bool) (h : DisInv d [] st) :
    st.1 = d ∧ st.2.2 = false ∧
    st.2.1.any (fun p => p.2) = false := by
  obtain ⟨h1, h2, h3, h4, h5⟩ := h
  have hdata : st.1 = d :=
    data_ext st.1 d h1 hnd (fun k => h3 k (by simp))
  refine ⟨hdata, h2, ?_⟩
  rw [List.any_eq_false]
  intro p hp
  have := h4 p.1 p.2 (aGet_of_mem_nodup _ _ _ h5 hp)
  rw [hdata] at this
  simp only [not_true_eq_false, decide_not] at this
  simp [this]

end Overture.St


namespace Overture.St

@[simp]
theorem created_setStatus (s : StoreState) (k : SK) (v : Nat) :
    (setStatus s k v).created = s.created := by
  unfold setStatus
  split <;> rfl

@[simp]
theorem destroyed_setStatus (s : StoreState) (k : SK) (v : Nat) :
    (setStatus s k v).destroyed = s.destroyed := by
  unfold setStatus
  split <;> rfl

@[simp]
theorem skToChanged_setStatus (s : StoreState) (k : SK) (v : Nat) :
    (setStatus s k v).skToChanged = s.skToChanged := by
  unfold setStatus
  split <;> rfl

@[simp]
theorem skToData_setStatus (s : StoreState) (k : SK) (v : Nat) :
    (setStatus s k v).skToData = s.skToData := by
  unfold setStatus
  split <;> rfl

/-- Writing the status a record already has is a no-op. -/
theorem setStatus_noop (s : StoreState) (sk : SK) (v : Nat)
    (h : getStatus s sk = v) : setStatus s sk v = s := by
  unfold setStatus
  rw [if_neg (not_not.mpr h)]

/-- `aDel` on the empty object. -/
theorem aDel_nil {κ α : Type} [DecidableEq κ] (k : κ) :
    aDel ([] : List (κ × α)) k = [] := rfl

/-- A dirtied data hash whose change set carries no `true` marker is the
committed snapshot itself. -/
theorem updInv_clean (d : Data) (hnd : (d.map Prod.fst).Nodup)
    (st : Data × Changed × Bool) (h : UpdInv d st)
    (hany : st.2.1.any (fun p => p.2) = false) : st.1 = d := by
  obtain ⟨h1, h2, h3, h4, h5⟩ := h
  refine data_ext st.1 d h1 hnd (fun k => ?_)
  cases hc : aGet st.2.1 k with
  | none =>
    unfold dataGet
    rw [h3 k hc]
  | some b =>
    have hb : b = false := by
      have hm := mem_of_aGet _ _ _ hc
      rw [List.any_eq_false] at hany
      simpa using hany (k, b) hm
    have := h2 k b hc
    rw [hb] at this
    have := of_decide_eq_false this.symm
    exact not_not.mp this

/-- `aSet` on the empty object. -/
theorem aSet_nil {κ α : Type} [DecidableEq κ] (k : κ) (v : α) :
    aSet ([] : List (κ × α)) k v = [(k, v)] := rfl

/-- Discarding a record left READY|DIRTY by a key-preserving dirty update
replays the committed snapshot and restores everything. -/
theorem discard_dirty (types : TypeId → TypeInfo) (s : StoreState) (sk : SK)
    (d cur : Data) (ch : Changed)
    (hnd : (d.map Prod.fst).Nodup)
    (hkc : cur.map Prod.fst = d.map Prod.fst)
    (hc4 : ∀ k b, aGet ch k = some b →
      b = decide (¬ dataGet cur k = dataGet d k))
    (hcnd : (ch.map Prod.fst).Nodup)
    (hcr : s.created = []) (hde : s.destroyed = [])
    (hst : getStatus s sk = READY)
    (hchS : s.skToChanged = []) :
    aGet (discardChanges types (setStatus { s with
        skToData := aSet s.skToData sk cur
        skToCommitted := aSet s.skToCommitted sk d
        skToChanged := aSet s.skToChanged sk ch } sk
        (READY ||| DIRTY))).skToData sk = some d ∧
    aGet (discardChanges types (setStatus { s with
        skToData := aSet s.skToData sk cur
        skToCommitted := aSet s.skToCommitted sk d
        skToChanged := aSet s.skToChanged sk ch } sk
        (READY ||| DIRTY))).skToChanged sk = none ∧
    getStatus (discardChanges types (setStatus { s with
        skToData := aSet s.skToData sk cur
        skToCommitted := aSet s.skToCommitted sk d
        skToChanged := aSet s.skToChanged sk ch } sk
        (READY ||| DIRTY))) sk = READY := by
  set X := setStatus { s with
    skToData := aSet s.skToData sk cur
    skToCommitted := aSet s.skToCommitted sk d
    skToChanged := aSet s.skToChanged sk ch } sk (READY ||| DIRTY) with hX
  have hXstatus : getStatus X sk = (READY ||| DIRTY) := by
    rw [hX]
    exact getStatus_setStatus_self _ _ _
  have hXdata : aGet X.skToData sk = some cur := by
    rw [hX]
    simp [aGet_aSet_self]
  have hXcom : aGet X.skToCommitted sk = some d := by
    rw [hX]
    simp [aGet_aSet_self]
  have hXchg : X.skToChanged = aSet ([] : List (SK × Changed)) sk ch := by
    rw [hX]
    simp [hchS]
  have hXchg2 : aGet X.skToChanged sk = some ch := by
    rw [hXchg]
    exact aGet_aSet_self _ _ _
  have hXcr : X.created = [] := by
    rw [hX]
    simp [hcr]
  have hXde : X.destroyed = [] := by
    rw [hX]
    simp [hde]
  have hsub : ∀ p ∈ d, aGet d p.1 = some p.2 :=
    fun p hp => aGet_of_mem_nodup _ _ _ hnd hp
  have hdis := disInv_fold d hnd d (cur, ch, false) hsub
    ⟨hkc, rfl,
     (fun k hk => by
       unfold dataGet
       rw [aGet_eq_none_of_not_mem cur k (hkc ▸ hk),
         aGet_eq_none_of_not_mem d k hk]),
     hc4, hcnd⟩
  obtain ⟨hd1, hd2, hd3⟩ := disInv_conclusion d hnd _ hdis
  have hupd2 : (updateData X sk d true).2 = setStatus { X with
      skToData := aSet X.skToData sk
        (d.foldl (updateDirtyStep d) (cur, ch, false)).1
      skToCommitted := aDel X.skToCommitted sk
      skToChanged := aDel X.skToChanged sk } sk
      (jsClear (READY ||| DIRTY) DIRTY) := by
    unfold updateData
    rw [hXdata]
    dsimp only
    rw [hXstatus, hXcom, hXchg2]
    simp only [Option.getD_some]
    rw [if_neg (by decide), if_pos (by decide)]
    rw [if_neg (by simp [hd2, hd3])]
    split
    · rw [if_neg (fun hco => absurd hco.1 (by decide))]
    · rfl
  unfold discardChanges
  dsimp only
  rw [hXcr]
  simp only [List.map_nil, List.foldl_nil]
  rw [hXchg]
  simp only [aSet_nil, List.map_cons, List.map_nil, List.foldl_cons,
    List.foldl_nil]
  rw [hXcom]
  simp only [Option.getD_some]
  rw [hupd2]
  have hXde2 : (setStatus { X with
      skToData := aSet X.skToData sk
        (d.foldl (updateDirtyStep d) (cur, ch, false)).1
      skToCommitted := aDel X.skToCommitted sk
      skToChanged := aDel X.skToChanged sk } sk
      (jsClear (READY ||| DIRTY) DIRTY)).destroyed = [] := by
    simp [hXde]
  rw [hXde2]
  simp only [List.map_nil, List.foldl_nil]
  have hclear : jsClear (READY ||| DIRTY) DIRTY = READY := by decide
  rw [hclear]
  have hwrite : getStatus { X with
      skToData := aSet X.skToData sk
        (d.foldl (updateDirtyStep d) (cur, ch, false)).1
      skToCommitted := aDel X.skToCommitted sk
      skToChanged := aDel X.skToChanged sk } sk = (READY ||| DIRTY) :=
    hXstatus
  refine ⟨?_, ?_, ?_⟩
  · dsimp only
    rw [skToData_setStatus]
    dsimp only
    rw [hd1, aGet_aSet_self]
  · dsimp only
    rw [skToChanged_setStatus]
    dsimp only
    exact aGet_aDel_self _ _
  · unfold getStatus
    dsimp only
    unfold setStatus
    rw [if_pos (by rw [hwrite]; decide)]
    dsimp only
    rw [aGet_aSet_self]
    rfl

/-- C4 (amended): on a clean READY record of a store with no other
pending local changes, `updateData(sk, patch, true)` followed by
`discardChanges` restores the data hash exactly, empties the changed set
and restores the READY status — for every patch whose keys all exist in
the pre-patch data.  The unrestricted claim fails for patches that
introduce new keys, refuted separately. -/
theorem store_update_discard_roundTrip (types : TypeId → TypeInfo)
    (s : StoreState) (sk : SK) (d patch : Data)
    (hd : aGet s.skToData sk = some d)
    (hnd : (d.map Prod.fst).Nodup)
    (hkeys : ∀ p ∈ patch, p.1 ∈ d.map Prod.fst)
    (hst : getStatus s sk = READY)
    (hch : s.skToChanged = [])
    (hcm : aGet s.skToCommitted sk = none)
    (hcr : s.created = [])
    (hde : s.destroyed = []) :
    aGet (discardChanges types (updateData s sk patch true).2).skToData sk =
      some d ∧
    aGet (discardChanges types
      (updateData s sk patch true).2).skToChanged sk = none ∧
    getStatus (discardChanges types (updateData s sk patch true).2) sk =
      READY := by
  have hchg : aGet s.skToChanged sk = none := by
    rw [hch]
    rfl
  have hinv := updInv_fold d patch hkeys
  have hupd : (updateData s sk patch true).2 =
      (if ((patch.foldl (updateDirtyStep d) (d, [], false)).2.2 ||
          (patch.foldl (updateDirtyStep d) (d, [], false)).2.1.any
            (fun p => p.2)) = true then
        setStatus { s with
          skToData := aSet s.skToData sk
            (patch.foldl (updateDirtyStep d) (d, [], false)).1
          skToCommitted := aSet s.skToCommitted sk d
          skToChanged := aSet s.skToChanged sk
            (patch.foldl (updateDirtyStep d) (d, [], false)).2.1 } sk
          (READY ||| DIRTY)
      else
        setStatus { s with
          skToData := aSet s.skToData sk
            (patch.foldl (updateDirtyStep d) (d, [], false)).1
          skToCommitted := aDel s.skToCommitted sk
          skToChanged := aDel s.skToChanged sk } sk
          (jsClear READY DIRTY)) := by
    unfold updateData
    rw [hd]
    dsimp only
    rw [hst, hcm, hchg]
    simp only [Option.getD_none]
    rw [if_neg (by decide), if_pos (by decide)]
    split
    · rw [if_neg (fun hco => absurd hco.1 (by decide))]
    · rfl
  rw [hupd]
  by_cases hseen : ((patch.foldl (updateDirtyStep d) (d, [], false)).2.2 ||
      (patch.foldl (updateDirtyStep d) (d, [], false)).2.1.any
        (fun p => p.2)) = true
  case neg =>
    -- No surviving change: the update already reset everything.
    rw [if_neg hseen]
    have hany : (patch.foldl (updateDirtyStep d) (d, [], false)).2.1.any
        (fun p => p.2) = false := by
      have hor := Bool.eq_false_iff.mpr hseen
      exact (Bool.or_eq_false_iff.mp hor).2
    rw [updInv_clean d hnd _ hinv hany]
    rw [show jsClear READY DIRTY = READY from by decide]
    have hnoop := setStatus_noop
      { s with skToData := aSet s.skToData sk d
               skToCommitted := aDel s.skToCommitted sk
               skToChanged := aDel s.skToChanged sk } sk READY hst
    rw [hnoop]
    unfold discardChanges
    dsimp only
    rw [hcr, hch, hde, aDel_nil]
    simp only [List.map_nil, List.foldl_nil]
    refine ⟨?_, ?_, ?_⟩
    · dsimp only
      rw [aGet_aSet_self]
    · rfl
    · unfold getStatus
      dsimp only
      exact hst
  case pos =>
    rw [if_pos hseen]
    exact discard_dirty types s sk d _ _ hnd hinv.1 hinv.2.1
      hinv.2.2.2.2 hcr hde hst hch

end Overture.St


namespace Overture.St

/-- C3 witness: committing `updStore` (one DIRTY updated record) stores
its rollback snapshot and flips it to COMMITTING. -/
theorem store_committing_implies_rollback_witness :
    (aGet (commitChanges types0 updStore).skToRollback 1).isSome ∧
    getStatus (commitChanges types0 updStore) 1 &&& COMMITTING ≠ 0 :=
  store_committing_implies_rollback types0 updStore 1 [("a", true)]
    [("a", Val.num 1), ("b", Val.num 1)] (by decide) (by decide) (by decide)
    (by decide) (by decide)

/-- C4 witness: on `cleanStore`, patching the existing key `a` and
discarding restores `{a:1}`, an empty changed set and READY. -/
theorem store_update_discard_roundTrip_witness :
    aGet (discardChanges types0 (updateData cleanStore 1
      [("a", Val.num 7)] true).2).skToData 1 = some [("a", Val.num 1)] ∧
    aGet (discardChanges types0 (updateData cleanStore 1
      [("a", Val.num 7)] true).2).skToChanged 1 = none ∧
    getStatus (discardChanges types0 (updateData cleanStore 1
      [("a", Val.num 7)] true).2) 1 = READY :=
  store_update_discard_roundTrip types0 cleanStore 1 [("a", Val.num 1)]
    [("a", Val.num 7)] (by decide) (by decide) (by decide) (by decide)
    (by decide) (by decide) (by decide) (by decide)

end Overture.St
